import Mathlib

set_option linter.unusedVariables false

/-
Verification of the puppeteer MCP server (src/puppeteer/index.ts).

The development shallowly embeds the server's core logic:
  - JavaScript values relevant to launch configurations as `JValue`;
  - the `deepMerge` config merger (index.ts lines 150-160);
  - `ensureBrowser` with its danger filter and session reuse/relaunch
    decision (lines 107-148), with the external collaborators
    (puppeteer launch/close, process env) supplied as explicit inputs;
  - the `handleToolCall` dispatcher (lines 162-212) with the page
    operations (goto, screenshot, click, ...) supplied by an oracle
    recording their success or failure;
  - the resource list/read handlers (lines 219-232).
Effects (browser closes and launches, protocol notifications) are
recorded in an explicit event list so that theorems can speak about
"no relaunch happened" and "exactly two notifications fired".
-/

namespace PuppeteerMcp

/-- JavaScript values as they appear in launch configurations and tool
arguments: JSON values plus `undefined`. Object fields are kept in
insertion order, as JavaScript enumerates non-integer keys. -/
inductive JValue : Type where
  | null : JValue
  | undefined : JValue
  | bool : Bool → JValue
  | num : Int → JValue
  | str : String → JValue
  | arr : List JValue → JValue
  | obj : List (String × JValue) → JValue

mutual

/-- Structural boolean equality on `JValue` (JSON values have no object
identity, so value equality is the right notion here). -/
def jbeq : JValue → JValue → Bool
  | .null, .null => true
  | .undefined, .undefined => true
  | .bool a, .bool b => a == b
  | .num a, .num b => a == b
  | .str a, .str b => a == b
  | .arr a, .arr b => jbeqL a b
  | .obj a, .obj b => jbeqF a b
  | _, _ => false

/-- Elementwise `jbeq` on lists of values. -/
def jbeqL : List JValue → List JValue → Bool
  | [], [] => true
  | a :: as, b :: bs => jbeq a b && jbeqL as bs
  | _, _ => false

/-- Fieldwise `jbeq` on object field lists. -/
def jbeqF : List (String × JValue) → List (String × JValue) → Bool
  | [], [] => true
  | (k, a) :: as, (k', b) :: bs => k == k' && jbeq a b && jbeqF as bs
  | _, _ => false

end

mutual

theorem jbeq_eq : ∀ {a b : JValue}, jbeq a b = true → a = b
  | .null, .null, _ => rfl
  | .undefined, .undefined, _ => rfl
  | .bool _, .bool _, h => by simpa [jbeq] using congrArg JValue.bool (by simpa [jbeq] using h)
  | .num _, .num _, h => by simpa using congrArg JValue.num (by simpa [jbeq] using h)
  | .str _, .str _, h => by simpa using congrArg JValue.str (by simpa [jbeq] using h)
  | .arr _, .arr _, h => congrArg JValue.arr (jbeqL_eq (by simpa [jbeq] using h))
  | .obj _, .obj _, h => congrArg JValue.obj (jbeqF_eq (by simpa [jbeq] using h))

theorem jbeqL_eq : ∀ {a b : List JValue}, jbeqL a b = true → a = b
  | [], [], _ => rfl
  | a :: as, b :: bs, h => by
    have h' : jbeq a b = true ∧ jbeqL as bs = true := by simpa [jbeqL] using h
    rw [jbeq_eq h'.1, jbeqL_eq h'.2]

theorem jbeqF_eq : ∀ {a b : List (String × JValue)}, jbeqF a b = true → a = b
  | [], [], _ => rfl
  | (k, a) :: as, (k', b) :: bs, h => by
    have h' : (k = k' ∧ jbeq a b = true) ∧ jbeqF as bs = true := by simpa [jbeqF] using h
    rw [h'.1.1, jbeq_eq h'.1.2, jbeqF_eq h'.2]

end

mutual

theorem jbeq_refl : ∀ (a : JValue), jbeq a a = true
  | .null => rfl
  | .undefined => rfl
  | .bool _ => by simp [jbeq]
  | .num _ => by simp [jbeq]
  | .str _ => by simp [jbeq]
  | .arr xs => by simpa [jbeq] using jbeqL_refl xs
  | .obj fs => by simpa [jbeq] using jbeqF_refl fs

theorem jbeqL_refl : ∀ (a : List JValue), jbeqL a a = true
  | [] => rfl
  | a :: as => by simp [jbeqL, jbeq_refl a, jbeqL_refl as]

theorem jbeqF_refl : ∀ (a : List (String × JValue)), jbeqF a a = true
  | [] => rfl
  | (k, a) :: as => by simp [jbeqF, jbeq_refl a, jbeqF_refl as]

end

instance : DecidableEq JValue := fun a b =>
  if h : jbeq a b = true then .isTrue (jbeq_eq h)
  else .isFalse (fun he => h (he ▸ jbeq_refl a))

instance {ε α : Type} [DecidableEq ε] [DecidableEq α] : DecidableEq (Except ε α) := fun a b =>
  match a, b with
  | .error e, .error e' =>
      if h : e = e' then .isTrue (by rw [h]) else .isFalse (by simp [h])
  | .ok x, .ok y =>
      if h : x = y then .isTrue (by rw [h]) else .isFalse (by simp [h])
  | .error _, .ok _ => .isFalse (by simp)
  | .ok _, .error _ => .isFalse (by simp)

/-- The `typeof v === 'object'` test of JavaScript: true exactly for
`null`, arrays and plain objects. -/
def typeofObject : JValue → Bool
  | .null => true
  | .arr _ => true
  | .obj _ => true
  | _ => false

/-- JavaScript truthiness of a value. -/
def jsTruthy : JValue → Bool
  | .null => false
  | .undefined => false
  | .bool b => b
  | .num n => !(n == 0)
  | .str s => !(s == "")
  | .arr _ => true
  | .obj _ => true

/-- The `Array.isArray` test. -/
def isArrB : JValue → Bool
  | .arr _ => true
  | _ => false

/-- Elements of an array value (`[]` on non-arrays; only applied to arrays). -/
def arrElems : JValue → List JValue
  | .arr xs => xs
  | _ => []

/-- First binding of key `k` in an association list, mirroring property
lookup on a JavaScript object (whose keys are unique). -/
def lookupKey {α : Type} : List (String × α) → String → Option α
  | [], _ => none
  | (k', v) :: rest, k => if k' = k then some v else lookupKey rest k

/-- Property assignment `o[k] = v` on an object represented as a field
list: replaces the binding in place if the key exists, else appends. -/
def setKey {α : Type} : List (String × α) → String → α → List (String × α)
  | [], k, v => [(k, v)]
  | (k', v') :: rest, k, v =>
      if k' = k then (k', v) :: rest else (k', v') :: setKey rest k v

/-- Canonical array-index interpretation of a property key: `"3"` is the
index 3 but `"03"` is not an index, as in JavaScript. -/
def canonIndex (k : String) : Option Nat :=
  match k.toNat? with
  | some i => if toString i = k then some i else none
  | none => none

/-- Property access `v[k]`: throws a TypeError on `null`/`undefined`,
looks up object fields, resolves array indices and `length`, and gives
`undefined` on (autoboxed) primitives. -/
def getProp : JValue → String → Except String JValue
  | .null, _ => .error "TypeError: Cannot read properties of null"
  | .undefined, _ => .error "TypeError: Cannot read properties of undefined"
  | .obj fs, k => .ok ((lookupKey fs k).getD .undefined)
  | .arr xs, k =>
      .ok (if k == "length" then .num xs.length else
        match canonIndex k with
        | some i => (xs.get? i).getD .undefined
        | none => .undefined)
  | _, _ => .ok .undefined

/-- Index-keyed entries of an array, as enumerated by `Object.keys`. -/
def arrEntries : Nat → List JValue → List (String × JValue)
  | _, [] => []
  | i, x :: xs => (toString i, x) :: arrEntries (i + 1) xs

/-- Own enumerable entries of a value, as `Object.keys` paired with the
corresponding property values. `Object.keys(null)` throws. Primitives
only reach this through guarded positions where the result is unused. -/
def entriesOf : JValue → Except String (List (String × JValue))
  | .null => .error "TypeError: Cannot convert undefined or null to object"
  | .obj fs => .ok fs
  | .arr xs => .ok (arrEntries 0 xs)
  | _ => .ok []

/-- Spread `{...v}` into an object: copies object fields, turns an array
into its index-keyed fields, and gives `{}` for `null`. -/
def spreadObj : JValue → List (String × JValue)
  | .obj fs => fs
  | .arr xs => arrEntries 0 xs
  | _ => []

/-- Whether a value is a composite (object or array); JavaScript's
`SameValueZero` compares such values by reference identity, primitives
by value. -/
def isComposite : JValue → Bool
  | .obj _ => true
  | .arr _ => true
  | _ => false

/-- One insertion step of a JavaScript `Set`, modelled with value
equality: keeps the first occurrence. The runtime `Set` uses
SameValueZero, which agrees with value equality on primitive elements
and on composite elements exactly when structural duplicates are the
same reference (as they are when a union's own output is spread into a
second union); `svzSetAdd` below models the other regime, where
composite elements are pairwise-distinct references. -/
def jsSetAdd (acc : List JValue) (x : JValue) : List JValue :=
  if x ∈ acc then acc else acc ++ [x]

/-- The list produced by `Array.from(new Set(l))` under the
value-equality model of `jsSetAdd`: deduplication keeping the first
occurrence of each element, in insertion order. Exact for primitive
elements (the string argument lists this server merges); see
`svzSetFrom` for composite elements of independently parsed inputs. -/
def jsSetFrom (l : List JValue) : List JValue := l.foldl jsSetAdd []

/-- One insertion step of a JavaScript `Set` under SameValueZero for
inputs whose composite elements are pairwise-distinct references, as
the elements of two independently JSON-parsed argument lists are:
primitives dedupe by value, while objects and arrays — never
reference-equal here even when structurally equal — are always kept. -/
def svzSetAdd (acc : List JValue) (x : JValue) : List JValue :=
  if isComposite x = false ∧ x ∈ acc then acc else acc ++ [x]

/-- The list produced by `Array.from(new Set(l))` under SameValueZero
insertion on pairwise-distinct composite references (`svzSetAdd`). -/
def svzSetFrom (l : List JValue) : List JValue := l.foldl svzSetAdd []

mutual

/-- Size measure on values, used to justify `deepMerge`'s recursion. -/
def jsize : JValue → Nat
  | .arr xs => 1 + jsizeL xs
  | .obj fs => 1 + jsizeF fs
  | _ => 1

/-- Size measure on element lists. -/
def jsizeL : List JValue → Nat
  | [] => 0
  | x :: xs => 1 + jsize x + jsizeL xs

/-- Size measure on field lists. -/
def jsizeF : List (String × JValue) → Nat
  | [] => 0
  | p :: ps => 1 + jsize p.2 + jsizeF ps

end

theorem jsizeF_arrEntries : ∀ (i : Nat) (xs : List JValue),
    jsizeF (arrEntries i xs) = jsizeL xs
  | _, [] => rfl
  | i, x :: xs => by
      simp [arrEntries, jsizeF, jsizeL, jsizeF_arrEntries (i + 1) xs]

theorem entriesOf_jsizeF {v : JValue} {es : List (String × JValue)}
    (h : entriesOf v = .ok es) : jsizeF es < jsize v := by
  cases v with
  | null => simp [entriesOf] at h
  | arr xs =>
      simp only [entriesOf, Except.ok.injEq] at h
      subst h
      simp [jsizeF_arrEntries, jsize]
  | obj fs =>
      simp only [entriesOf, Except.ok.injEq] at h
      subst h
      simp [jsize]
  | undefined => simp only [entriesOf, Except.ok.injEq] at h; subst h; simp [jsizeF, jsize]
  | bool b => simp only [entriesOf, Except.ok.injEq] at h; subst h; simp [jsizeF, jsize]
  | num n => simp only [entriesOf, Except.ok.injEq] at h; subst h; simp [jsizeF, jsize]
  | str s => simp only [entriesOf, Except.ok.injEq] at h; subst h; simp [jsizeF, jsize]

mutual

/-- Embedding of `deepMerge(target, source)` (index.ts lines 150-160):
if either operand fails the `typeof === 'object'` test the override is
returned unchanged; otherwise the source's own entries are folded into a
spread copy of the target. Errors model thrown TypeErrors. -/
def deepMerge (target source : JValue) : Except String JValue :=
  if typeofObject target && typeofObject source then
    match h : entriesOf source with
    | .error e => .error e
    | .ok es =>
      match mergeEntries target (spreadObj target) es with
      | .error e => .error e
      | .ok out => .ok (.obj out)
  else .ok source
termination_by jsize source
decreasing_by exact entriesOf_jsizeF h

/-- The body of `deepMerge`'s `for (const key of Object.keys(source))`
loop: per key, array-vs-array becomes a `Set` union, a truthy object
source recurses, and anything else overrides. -/
def mergeEntries (target : JValue) (out : List (String × JValue)) :
    List (String × JValue) → Except String (List (String × JValue))
  | [] => .ok out
  | (k, s) :: rest =>
    match getProp target k with
    | .error e => .error e
    | .ok t =>
      match (if isArrB t && isArrB s then
               Except.ok (JValue.arr (jsSetFrom (arrElems t ++ arrElems s)))
             else if jsTruthy s && typeofObject s then deepMerge t s
             else Except.ok s : Except String JValue) with
      | .error e => .error e
      | .ok v => mergeEntries target (setKey out k v) rest
termination_by es => jsizeF es
decreasing_by
all_goals simp_arith [jsizeF]

end

/-- The per-entry value computed by one `deepMerge` loop iteration,
split out of `mergeEntries` so theorems can name it. -/
def stepValue (target : JValue) (k : String) (s : JValue) : Except String JValue :=
  match getProp target k with
  | .error e => .error e
  | .ok t =>
      if isArrB t && isArrB s then
        Except.ok (JValue.arr (jsSetFrom (arrElems t ++ arrElems s)))
      else if jsTruthy s && typeofObject s then deepMerge t s
      else Except.ok s

theorem mergeEntries_cons (target : JValue) (out : List (String × JValue))
    (k : String) (s : JValue) (rest : List (String × JValue)) :
    mergeEntries target out ((k, s) :: rest) =
      match stepValue target k s with
      | .error e => .error e
      | .ok v => mergeEntries target (setKey out k v) rest := by
  rw [mergeEntries, stepValue]
  cases getProp target k with
  | error e => rfl
  | ok t =>
      by_cases h1 : isArrB t && isArrB s
      · simp [h1]
      · by_cases h2 : jsTruthy s && typeofObject s
        · simp [h1, h2]
        · simp [h1, h2]

mutual

/-- Value contains no `undefined` anywhere. Values arriving through the
JSON protocol always satisfy this. -/
def noUndefined : JValue → Bool
  | .undefined => false
  | .arr xs => noUndefinedL xs
  | .obj fs => noUndefinedF fs
  | _ => true

/-- List version of `noUndefined`. -/
def noUndefinedL : List JValue → Bool
  | [] => true
  | x :: xs => noUndefined x && noUndefinedL xs

/-- Field-list version of `noUndefined`. -/
def noUndefinedF : List (String × JValue) → Bool
  | [] => true
  | (_, v) :: fs => noUndefined v && noUndefinedF fs

end

mutual

/-- Value contains no array anywhere. -/
def noArrays : JValue → Bool
  | .arr _ => false
  | .obj fs => noArraysF fs
  | _ => true

/-- Field-list version of `noArrays`. -/
def noArraysF : List (String × JValue) → Bool
  | [] => true
  | (_, v) :: fs => noArrays v && noArraysF fs

end

/-- Keys of a field list are pairwise distinct (a JavaScript object
invariant). -/
def nodupKeysB : List (String × JValue) → Bool
  | [] => true
  | (k, _) :: fs => !(fs.any (fun p => p.1 == k)) && nodupKeysB fs

mutual

/-- Every object nested in the value has pairwise-distinct keys, as any
actual JavaScript value does. -/
def wfObj : JValue → Bool
  | .obj fs => nodupKeysB fs && wfObjF fs
  | .arr xs => wfObjL xs
  | _ => true

/-- List version of `wfObj`. -/
def wfObjL : List JValue → Bool
  | [] => true
  | x :: xs => wfObj x && wfObjL xs

/-- Field-list version of `wfObj`. -/
def wfObjF : List (String × JValue) → Bool
  | [] => true
  | (_, v) :: fs => wfObj v && wfObjF fs

end

mutual

/-- Normal form of a value under `JSON.stringify`: `undefined` at the
top serializes to nothing, `undefined` array elements render as `null`,
and `undefined`-valued object fields are dropped. Two values produce
the same `JSON.stringify` text exactly when their normal forms agree
(the textual encoding itself is injective on normal forms, since field
order is insertion order); the session manager's option comparison is
modelled through this normal form. -/
def stringifyNorm : JValue → Option JValue
  | .undefined => none
  | .null => some .null
  | .bool b => some (.bool b)
  | .num n => some (.num n)
  | .str s => some (.str s)
  | .arr xs => some (.arr (stringifyNormL xs))
  | .obj fs => some (.obj (stringifyNormF fs))

/-- Array-element normalization for `stringifyNorm`. -/
def stringifyNormL : List JValue → List JValue
  | [] => []
  | x :: xs => ((stringifyNorm x).getD .null) :: stringifyNormL xs

/-- Object-field normalization for `stringifyNorm`. -/
def stringifyNormF : List (String × JValue) → List (String × JValue)
  | [] => []
  | (k, v) :: fs =>
    match stringifyNorm v with
    | some w => (k, w) :: stringifyNormF fs
    | none => stringifyNormF fs

end

mutual

theorem stringifyNorm_of_noUndefined : ∀ {v : JValue}, noUndefined v = true → stringifyNorm v = some v
  | .null, _ => rfl
  | .bool _, _ => rfl
  | .num _, _ => rfl
  | .str _, _ => rfl
  | .arr xs, h => by
      simp only [stringifyNorm, Option.some.injEq, JValue.arr.injEq]
      exact stringifyNormL_of_noUndefined (by simpa [noUndefined] using h)
  | .obj fs, h => by
      simp only [stringifyNorm, Option.some.injEq, JValue.obj.injEq]
      exact stringifyNormF_of_noUndefined (by simpa [noUndefined] using h)

theorem stringifyNormL_of_noUndefined : ∀ {l : List JValue}, noUndefinedL l = true → stringifyNormL l = l
  | [], _ => rfl
  | x :: xs, h => by
      have h' : noUndefined x = true ∧ noUndefinedL xs = true := by simpa [noUndefinedL] using h
      simp [stringifyNormL, stringifyNorm_of_noUndefined h'.1, stringifyNormL_of_noUndefined h'.2]

theorem stringifyNormF_of_noUndefined : ∀ {l : List (String × JValue)},
    noUndefinedF l = true → stringifyNormF l = l
  | [], _ => rfl
  | (k, v) :: fs, h => by
      have h' : noUndefined v = true ∧ noUndefinedF fs = true := by simpa [noUndefinedF] using h
      simp [stringifyNormF, stringifyNorm_of_noUndefined h'.1, stringifyNormF_of_noUndefined h'.2]

end

mutual

/-- String conversion of a value as a JavaScript template literal does. -/
def jsToString : JValue → String
  | .null => "null"
  | .undefined => "undefined"
  | .bool b => if b then "true" else "false"
  | .num n => toString n
  | .str s => s
  | .arr xs => jsToStringL xs
  | .obj _ => "[object Object]"
termination_by v => 2 * jsize v
decreasing_by all_goals simp_arith [jsize, jsizeL]

/-- Array stringification: elements joined by commas, with `null` and
`undefined` elements rendering as empty strings. -/
def jsToStringL : List JValue → String
  | [] => ""
  | [x] => jsToStringElem x
  | x :: xs => jsToStringElem x ++ "," ++ jsToStringL xs
termination_by l => 2 * jsizeL l + 1
decreasing_by all_goals simp [jsize, jsizeL] <;> omega

/-- Element stringification inside an array. -/
def jsToStringElem : JValue → String
  | .null => ""
  | .undefined => ""
  | v => jsToString v
termination_by v => 2 * jsize v + 1
decreasing_by all_goals simp_arith [jsize, jsizeL]

end

/-- Fixed deny-list of dangerous launch-argument prefixes
(index.ts lines 108-113). -/
def DANGEROUS_ARGS : List String :=
  ["--no-sandbox", "--disable-setuid-sandbox", "--single-process",
   "--disable-web-security", "--ignore-certificate-errors",
   "--disable-features=IsolateOrigins", "--disable-site-isolation-trials",
   "--allow-running-insecure-content"]

/-- The `String.prototype.startsWith` test. -/
def jsStartsWith (s pre : String) : Bool := pre.data.isPrefixOf s.data

/-- An argument is flagged when it starts with some deny-listed prefix. -/
def dangerousArg (a : String) : Bool := DANGEROUS_ARGS.any (fun d => jsStartsWith a d)

/-- View of `mergedConfig.args` as a string list, erroring as the code
would: a truthy non-array has no `.filter`, and a non-string element
has no `.startsWith`. -/
def asStringList : JValue → Except String (List String)
  | .arr xs => xs.mapM (fun x => match x with
      | .str s => Except.ok s
      | _ => Except.error "TypeError: a.startsWith is not a function")
  | _ => .error "TypeError: mergedConfig.args.filter is not a function"

/-- The danger filter of `ensureBrowser` (index.ts lines 119-124):
flagged arguments are fatal unless the per-call `allowDangerous` value
is truthy or the `ALLOW_DANGEROUS` environment variable equals the
string true. -/
def dangerCheck (allowEnv : Bool) (ad : JValue) (merged : JValue) : Except String Unit :=
  match getProp merged "args" with
  | .error e => .error e
  | .ok av =>
    if jsTruthy av then
      match asStringList av with
      | .error e => .error e
      | .ok l =>
        let invalid := l.filter dangerousArg
        if !invalid.isEmpty && !(jsTruthy ad || allowEnv) then
          .error ("Dangerous args detected: " ++ String.intercalate ", " invalid)
        else .ok ()
    else .ok ()

/-- A browser handle together with what `isConnected()` reports. -/
structure Browser where
  id : Nat
  connected : Bool
deriving DecidableEq

/-- The module-level mutable state of the server (index.ts lines
100-105), plus the page viewport so screenshot sizing is observable. -/
structure BState where
  browser : Option Browser
  page : Option Nat
  previousLaunchOptions : JValue
  consoleLogs : List String
  screenshots : List (String × String)
  viewport : Option (JValue × JValue)
deriving DecidableEq

/-- Environment and puppeteer-launch inputs of one `ensureBrowser` call:
the parsed `PUPPETEER_LAUNCH_OPTIONS` config (malformed JSON has already
collapsed to `{}` by the `try/catch` on line 116), the
`ALLOW_DANGEROUS` and `DOCKER_CONTAINER` flags, and what
`puppeteer.launch` would do if called (fresh browser id or thrown
error) together with the id of the launched browser's first page. -/
structure OEnv where
  envConfig : JValue
  allowDangerousEnv : Bool
  dockerContainer : Bool
  launchResult : Except String Nat
  newPageId : Nat
deriving DecidableEq

/-- Observable side effects of a call: browser closes, browser
launches, and protocol notifications. -/
inductive Ev : Type where
  | closed : Nat → Ev
  | launched : Nat → Ev
  | notif : String → Option String → Ev
deriving DecidableEq

/-- Defaults used when launching inside a container (line 137). -/
def dockerDefaults : JValue :=
  .obj [("headless", .bool true),
        ("args", .arr [.str "--no-sandbox", .str "--single-process", .str "--no-zygote"])]

/-- Defaults used when launching outside a container (line 138). -/
def nonDockerDefaults : JValue := .obj [("headless", .bool false)]

/-- The tail of `ensureBrowser` after the danger filter has passed
(index.ts lines 126-147): invalidate the session if disconnected or if
truthy per-call options stringify differently from the previous call's;
record the per-call options as previous; relaunch if no browser is
left. A `close()` failure is swallowed by the `catch`, leaving the
browser slot cleared either way, so it needs no oracle input. -/
def ensureAfterFilter (env : OEnv) (st : BState) (lo merged : JValue) :
    BState × List Ev × Except String (Option Nat) :=
  let brEv : Option Browser × List Ev :=
    match st.browser with
    | some b =>
        if !b.connected then (none, [Ev.closed b.id])
        else if jsTruthy lo ∧ stringifyNorm lo ≠ stringifyNorm st.previousLaunchOptions then
          (none, [Ev.closed b.id])
        else (some b, [])
    | none => (none, [])
  let st1 : BState := { st with browser := brEv.1, previousLaunchOptions := lo }
  match brEv.1 with
  | some _ => (st1, brEv.2, .ok st1.page)
  | none =>
    match deepMerge (if env.dockerContainer then dockerDefaults else nonDockerDefaults) merged with
    | .error e => (st1, brEv.2, .error e)
    | .ok _launchCfg =>
      match env.launchResult with
      | .error e => (st1, brEv.2, .error e)
      | .ok bid =>
        ({ st1 with browser := some { id := bid, connected := true },
                    page := some env.newPageId },
         brEv.2 ++ [Ev.launched bid], .ok (some env.newPageId))

/-- Embedding of `ensureBrowser(args)` (index.ts lines 107-148):
destructure the argument bundle, merge the environment config with the
truthy-or-empty per-call launch options, run the danger filter, then
manage the session. The returned `Option Nat` is the `page!` handle. -/
def ensureBrowser (env : OEnv) (st : BState) (args : JValue) :
    BState × List Ev × Except String (Option Nat) :=
  match getProp args "launchOptions" with
  | .error e => (st, [], .error e)
  | .ok lo =>
    match getProp args "allowDangerous" with
    | .error e => (st, [], .error e)
    | .ok ad =>
      match deepMerge env.envConfig (if jsTruthy lo then lo else .obj []) with
      | .error e => (st, [], .error e)
      | .ok merged =>
        match dangerCheck env.allowDangerousEnv ad merged with
        | .error e => (st, [], .error e)
        | .ok _ => ensureAfterFilter env st lo merged

/-- Content item of a tool result: text, or an image with data and mime
type. -/
inductive CItem : Type where
  | text : String → CItem
  | image : String → String → CItem
deriving DecidableEq

/-- The `CallToolResult` value returned by the dispatcher. -/
structure ToolResult where
  content : List CItem
  isError : Bool
deriving DecidableEq

/-- Outcomes of the page operations the dispatcher invokes, supplied by
the browser-control library, which this development treats as an
oracle: for each operation either success (with its produced data) or
the message of the error it throws. `shotResult` is the
`(await pg.$(selector))?.screenshot` pipeline — an error is a throw,
`ok none` is a missing selector (optional chaining yields `undefined`),
`ok (some data)` a capture. `evalResult` carries the already
JSON-serialized script result. -/
structure PageOracle where
  gotoErr : Option String
  viewportErr : Option String
  shotResult : Except String (Option String)
  pageShotResult : Except String String
  clickErr : Option String
  fillErr : Option String
  selectErr : Option String
  hoverErr : Option String
  evalShimErr : Option String
  evalResult : Except String String
  evalLogs : Except String (List String)
deriving DecidableEq

/-- Property access used inside dispatch cases. These run only after
`ensureBrowser` succeeded, so the base is never `null`/`undefined` and
`getProp` cannot error. -/
def jsGet (v : JValue) (k : String) : JValue :=
  match getProp v k with
  | .ok x => x
  | .error _ => .undefined

/-- Nullish coalescing `v ?? d`. -/
def jsNullish (v d : JValue) : JValue :=
  match v with
  | .null => d
  | .undefined => d
  | x => x

/-- Truthiness of the captured screenshot string (`!shot` check):
`undefined` and the empty string are falsy. -/
def jsStrTruthy : Option String → Bool
  | none => false
  | some s => !(s == "")

/-- Embedding of `handleToolCall(name, args)` (index.ts lines 162-212).
The session-ensure step runs first for every tool, including unknown
ones; its failure propagates. `puppeteer_navigate` and the screenshot
capture pipeline are not wrapped in `try/catch`, so their thrown errors
propagate as well, while click/fill/select/hover/evaluate convert their
failures into `isError` results. -/
def handleToolCall (env : OEnv) (po : PageOracle) (st : BState) (name : String) (args : JValue) :
    BState × List Ev × Except String ToolResult :=
  match ensureBrowser env st args with
  | (st1, evs, .error e) => (st1, evs, .error e)
  | (st1, evs, .ok _pg) =>
    if name = "puppeteer_navigate" then
      match po.gotoErr with
      | some m => (st1, evs, .error m)
      | none =>
          (st1, evs, .ok { content := [.text ("Navigated to " ++ jsToString (jsGet args "url"))],
                           isError := false })
    else if name = "puppeteer_screenshot" then
      let w := jsNullish (jsGet args "width") (.num 800)
      let h := jsNullish (jsGet args "height") (.num 600)
      match po.viewportErr with
      | some m => (st1, evs, .error m)
      | none =>
        let st2 := { st1 with viewport := some (w, h) }
        let shotRes : Except String (Option String) :=
          if jsTruthy (jsGet args "selector") then po.shotResult
          else po.pageShotResult.map some
        match shotRes with
        | .error e => (st2, evs, .error e)
        | .ok oshot =>
          if !(jsStrTruthy oshot) then
            (st2, evs, .ok { content := [.text "Screenshot failed"], isError := true })
          else
            let d := oshot.getD ""
            let nm := jsToString (jsGet args "name")
            ({ st2 with screenshots := setKey st2.screenshots nm d },
             evs ++ [Ev.notif "notifications/resources/updated" (some ("screenshot://" ++ nm)),
                     Ev.notif "notifications/resources/list_changed" none],
             .ok { content :=
                     [.text ("Screenshot '" ++ nm ++ "' at " ++ jsToString w ++ "x" ++ jsToString h),
                      if jsTruthy (jsGet args "encoded") then
                        CItem.text ("data:image/png;base64," ++ d)
                      else CItem.image d "image/png"],
                   isError := false })
    else if name = "puppeteer_click" then
      match po.clickErr with
      | some m =>
          (st1, evs, .ok { content := [.text ("Click failed: " ++ m)], isError := true })
      | none =>
          (st1, evs, .ok { content := [.text ("Clicked " ++ jsToString (jsGet args "selector"))],
                           isError := false })
    else if name = "puppeteer_fill" then
      match po.fillErr with
      | some m =>
          (st1, evs, .ok { content := [.text ("Fill failed: " ++ m)], isError := true })
      | none =>
          (st1, evs, .ok { content := [.text ("Filled " ++ jsToString (jsGet args "selector"))],
                           isError := false })
    else if name = "puppeteer_select" then
      match po.selectErr with
      | some m =>
          (st1, evs, .ok { content := [.text ("Select failed: " ++ m)], isError := true })
      | none =>
          (st1, evs, .ok { content := [.text ("Selected " ++ jsToString (jsGet args "selector"))],
                           isError := false })
    else if name = "puppeteer_hover" then
      match po.hoverErr with
      | some m =>
          (st1, evs, .ok { content := [.text ("Hover failed: " ++ m)], isError := true })
      | none =>
          (st1, evs, .ok { content := [.text ("Hovered " ++ jsToString (jsGet args "selector"))],
                           isError := false })
    else if name = "puppeteer_evaluate" then
      match po.evalShimErr with
      | some m =>
          (st1, evs, .ok { content := [.text ("Eval failed: " ++ m)], isError := true })
      | none =>
        match po.evalResult with
        | .error m =>
            (st1, evs, .ok { content := [.text ("Eval failed: " ++ m)], isError := true })
        | .ok res =>
          match po.evalLogs with
          | .error m =>
              (st1, evs, .ok { content := [.text ("Eval failed: " ++ m)], isError := true })
          | .ok logs =>
              (st1, evs,
               .ok { content :=
                       [.text ("Result:\n" ++ res ++ "\nLogs:\n" ++ String.intercalate "\n" logs)],
                     isError := false })
    else
      (st1, evs, .ok { content := [.text ("Unknown tool: " ++ name)], isError := true })

/-- Character-level splitter behind `String.prototype.split` for a
non-empty plain-string separator: leftmost, non-overlapping matches. -/
def splitCharsAux (sep : List Char) (acc : List Char) : List Char → List (List Char)
  | [] => [acc.reverse]
  | c :: rest =>
    if h : sep ≠ [] ∧ sep.isPrefixOf (c :: rest) then
      acc.reverse :: splitCharsAux sep [] (List.drop sep.length (c :: rest))
    else splitCharsAux sep (c :: acc) rest
termination_by l => l.length
decreasing_by
  · have hpos : 0 < sep.length := List.length_pos.mpr h.1
    simp [List.length_drop]
    omega
  · simp

/-- The `s.split(sep)` of JavaScript for a non-empty separator. -/
def jsSplit (s sep : String) : List String :=
  (splitCharsAux sep.data [] s.data).map (fun l => String.mk l)

/-- One readable resource: a text or a base64 blob at a URI. -/
inductive ReadOut : Type where
  | text : String → String → ReadOut
  | blob : String → String → ReadOut
deriving DecidableEq

/-- The resource listing (index.ts lines 219-222): the console-log
resource followed by one `screenshot://name` entry per stored
screenshot, in insertion order. Each triple is (uri, mimeType, name). -/
def listResources (shots : List (String × String)) : List (String × String × String) :=
  ("console://logs", "text/plain", "Browser console logs") ::
    shots.map (fun p => ("screenshot://" ++ p.1, "image/png", "Screenshot: " ++ p.1))

/-- The resource read handler (index.ts lines 224-232): the console log
joined by newlines, or the screenshot found under `uri.split('://')[1]`;
a missing entry (or a falsy stored blob) falls through to the
resource-not-found throw. -/
def readResource (logs : List String) (shots : List (String × String)) (uri : String) :
    Except String ReadOut :=
  if uri = "console://logs" then .ok (.text uri (String.intercalate "\n" logs))
  else if jsStartsWith uri "screenshot://" then
    match lookupKey shots ((jsSplit uri "://").getD 1 "") with
    | some b =>
        if b == "" then .error ("Resource not found: " ++ uri)
        else .ok (.blob uri b)
    | none => .error ("Resource not found: " ++ uri)
  else .error ("Resource not found: " ++ uri)

/-- Test for protocol-notification events. -/
def isNotifEv : Ev → Bool
  | .notif _ _ => true
  | _ => false

/-- Occurrence test: does the character sequence `sep` occur inside the
list (as a contiguous subsequence)? -/
def hasSeq (sep : List Char) : List Char → Bool
  | [] => false
  | c :: rest => sep.isPrefixOf (c :: rest) || hasSeq sep rest

/-- Does a string contain the `://` marker? -/
def hasSepStr (s : String) : Bool := hasSeq "://".data s.data

/-- Initial module state (index.ts lines 100-105): no browser, no page,
`previousLaunchOptions = null`, empty logs and screenshots. -/
def initState : BState :=
  { browser := none, page := none, previousLaunchOptions := .null,
    consoleLogs := [], screenshots := [], viewport := none }

/-- A benign environment for concrete runs: empty env config, no
override flags, not containerized, launching succeeds with browser id 1
whose first page is 7. -/
def benignEnv : OEnv :=
  { envConfig := .obj [], allowDangerousEnv := false, dockerContainer := false,
    launchResult := .ok 1, newPageId := 7 }

/-- An oracle where every page operation succeeds. -/
def benignOracle : PageOracle :=
  { gotoErr := none, viewportErr := none, shotResult := .ok (some "IMG"),
    pageShotResult := .ok "IMG", clickErr := none, fillErr := none,
    selectErr := none, hoverErr := none, evalShimErr := none,
    evalResult := .ok "2", evalLogs := .ok [] }

/-- Argument bundle whose launch options are `{headless: true}`. -/
def argsHeadless : JValue :=
  .obj [("launchOptions", .obj [("headless", .bool true)])]

/-- State after one launch from the initial state by a call carrying no
launch options. -/
def stLaunched : BState :=
  { browser := some { id := 1, connected := true }, page := some 7,
    previousLaunchOptions := .undefined, consoleLogs := [], screenshots := [],
    viewport := none }

/-- Oracle where navigation fails with a thrown error. -/
def gotoFailOracle : PageOracle :=
  { benignOracle with gotoErr := some "net::ERR_NAME_NOT_RESOLVED" }

/-- Oracle where clicking fails with a thrown error. -/
def clickFailOracle : PageOracle :=
  { benignOracle with clickErr := some "No element found for selector" }

/-- Oracle where the full-page screenshot capture throws. -/
def shotFailOracle : PageOracle :=
  { benignOracle with pageShotResult := .error "Page crashed" }

theorem lookupKey_setKey_self {α : Type} :
    ∀ (l : List (String × α)) (k : String) (v : α),
      lookupKey (setKey l k v) k = some v := by
  intro l
  induction l with
  | nil => intro k v; simp [setKey, lookupKey]
  | cons p rest ih =>
      intro k v
      obtain ⟨k', v'⟩ := p
      by_cases h : k' = k
      · simp [setKey, h, lookupKey]
      · simp [setKey, h, lookupKey, ih]

theorem lookupKey_setKey_ne {α : Type} :
    ∀ (l : List (String × α)) (k k' : String) (v : α), k ≠ k' →
      lookupKey (setKey l k' v) k = lookupKey l k := by
  intro l
  induction l with
  | nil => intro k k' v hne; simp [setKey, lookupKey, Ne.symm hne]
  | cons p rest ih =>
      intro k k' v hne
      obtain ⟨k'', v''⟩ := p
      by_cases h : k'' = k'
      · subst h
        simp [setKey, lookupKey, Ne.symm hne]
      · simp [setKey, h, lookupKey, ih k k' v hne]

theorem setKey_eq_of_lookup {α : Type} :
    ∀ (l : List (String × α)) (k : String) (v : α),
      lookupKey l k = some v → setKey l k v = l := by
  intro l
  induction l with
  | nil => intro k v h; simp [lookupKey] at h
  | cons p rest ih =>
      intro k v h
      obtain ⟨k', v'⟩ := p
      by_cases hk : k' = k
      · simp [lookupKey, hk] at h
        simp [setKey, hk, h]
      · simp [lookupKey, hk] at h
        simp [setKey, hk, ih _ _ h]

theorem lookupKey_mem {α : Type} :
    ∀ {l : List (String × α)} {k : String} {v : α},
      lookupKey l k = some v → (k, v) ∈ l := by
  intro l
  induction l with
  | nil => intro k v h; simp [lookupKey] at h
  | cons p rest ih =>
      intro k v h
      obtain ⟨k', v'⟩ := p
      by_cases hk : k' = k
      · subst hk
        simp [lookupKey] at h
        simp [h]
      · simp [lookupKey, hk] at h
        exact List.mem_cons_of_mem _ (ih h)

theorem mergeEntries_nil (target : JValue) (out : List (String × JValue)) :
    mergeEntries target out [] = .ok out := by
  rw [mergeEntries]

theorem mergeEntries_lookup_notin (target : JValue) :
    ∀ (es out res : List (String × JValue)) (k : String),
      mergeEntries target out es = .ok res → k ∉ es.map Prod.fst →
      lookupKey res k = lookupKey out k := by
  intro es
  induction es with
  | nil =>
      intro out res k h _
      rw [mergeEntries_nil] at h
      cases h
      rfl
  | cons p rest ih =>
      obtain ⟨k', s⟩ := p
      intro out res k h hk
      rw [mergeEntries_cons] at h
      simp only [List.map_cons, List.mem_cons, not_or] at hk
      cases hv : stepValue target k' s with
      | error e => rw [hv] at h; cases h
      | ok v =>
          rw [hv] at h
          rw [ih (setKey out k' v) res k h hk.2]
          exact lookupKey_setKey_ne out k k' v hk.1

theorem mergeEntries_lookup_mem (target : JValue) :
    ∀ (es out res : List (String × JValue)) (k : String) (s v : JValue),
      (k, s) ∈ es → (es.map Prod.fst).Nodup →
      mergeEntries target out es = .ok res →
      stepValue target k s = .ok v →
      lookupKey res k = some v := by
  intro es
  induction es with
  | nil => intro _ _ _ _ _ hmem; simp at hmem
  | cons p rest ih =>
      obtain ⟨k', s'⟩ := p
      intro out res k s v hmem hnodup h hstep
      rw [mergeEntries_cons] at h
      simp only [List.map_cons, List.nodup_cons] at hnodup
      rcases List.mem_cons.mp hmem with heq | hmem'
      · injection heq with hk hs
        subst hk
        subst hs
        rw [hstep] at h
        rw [mergeEntries_lookup_notin target rest (setKey out k v) res k h hnodup.1]
        exact lookupKey_setKey_self out k v
      · cases hv : stepValue target k' s' with
        | error e => rw [hv] at h; cases h
        | ok v' =>
            rw [hv] at h
            exact ih (setKey out k' v') res k s v hmem' hnodup.2 h hstep

theorem mergeEntries_step_ok (target : JValue) :
    ∀ (es out res : List (String × JValue)) (k : String) (s : JValue),
      (k, s) ∈ es → mergeEntries target out es = .ok res →
      ∃ v, stepValue target k s = .ok v := by
  intro es
  induction es with
  | nil => intro _ _ _ _ hmem; simp at hmem
  | cons p rest ih =>
      obtain ⟨k', s'⟩ := p
      intro out res k s hmem h
      rw [mergeEntries_cons] at h
      cases hv : stepValue target k' s' with
      | error e => rw [hv] at h; cases h
      | ok v' =>
          rw [hv] at h
          rcases List.mem_cons.mp hmem with heq | hmem'
          · cases heq
            exact ⟨v', hv⟩
          · exact ih (setKey out k' v') res k s hmem' h

theorem mergeEntries_id (target : JValue) :
    ∀ (es out : List (String × JValue)),
      (∀ k s, (k, s) ∈ es → ∃ v, stepValue target k s = .ok v ∧ lookupKey out k = some v) →
      mergeEntries target out es = .ok out := by
  intro es
  induction es with
  | nil => intro out _; exact mergeEntries_nil target out
  | cons p rest ih =>
      obtain ⟨k, s⟩ := p
      intro out hall
      obtain ⟨v, hv, hlook⟩ := hall k s (List.mem_cons_self _ _)
      rw [mergeEntries_cons, hv]
      dsimp only
      rw [setKey_eq_of_lookup out k v hlook]
      exact ih out (fun k' s' hmem => hall k' s' (List.mem_cons_of_mem _ hmem))

theorem mem_jsSetAdd {acc : List JValue} {x y : JValue} :
    y ∈ jsSetAdd acc x ↔ y ∈ acc ∨ y = x := by
  unfold jsSetAdd
  by_cases h : x ∈ acc
  · simp only [if_pos h]
    constructor
    · exact Or.inl
    · rintro (hy | rfl)
      · exact hy
      · exact h
  · simp [if_neg h, or_comm]

theorem jsSetAdd_nodup {acc : List JValue} (x : JValue) (h : acc.Nodup) :
    (jsSetAdd acc x).Nodup := by
  unfold jsSetAdd
  by_cases hx : x ∈ acc
  · rw [if_pos hx]
    exact h
  · rw [if_neg hx]
    simp [List.nodup_append, h, hx]

theorem foldl_jsSetAdd_nodup :
    ∀ (l acc : List JValue), acc.Nodup → (l.foldl jsSetAdd acc).Nodup := by
  intro l
  induction l with
  | nil => intro acc h; exact h
  | cons x xs ih => intro acc h; exact ih _ (jsSetAdd_nodup x h)

theorem mem_foldl_jsSetAdd :
    ∀ (l acc : List JValue) (y : JValue),
      y ∈ l.foldl jsSetAdd acc ↔ y ∈ acc ∨ y ∈ l := by
  intro l
  induction l with
  | nil => intro acc y; simp
  | cons x xs ih =>
      intro acc y
      rw [List.foldl_cons, ih, mem_jsSetAdd]
      simp only [List.mem_cons]
      tauto

theorem jsSetFrom_nodup (l : List JValue) : (jsSetFrom l).Nodup :=
  foldl_jsSetAdd_nodup l [] List.nodup_nil

theorem mem_jsSetFrom {l : List JValue} {y : JValue} : y ∈ jsSetFrom l ↔ y ∈ l := by
  unfold jsSetFrom
  rw [mem_foldl_jsSetAdd]
  simp

theorem foldl_jsSetAdd_extra :
    ∀ (l acc : List JValue),
      ∃ extra, l.foldl jsSetAdd acc = acc ++ extra ∧ ∀ x ∈ extra, x ∈ l ∧ x ∉ acc := by
  intro l
  induction l with
  | nil => intro acc; exact ⟨[], by simp⟩
  | cons y ys ih =>
      intro acc
      rw [List.foldl_cons]
      unfold jsSetAdd
      by_cases hy : y ∈ acc
      · obtain ⟨extra, he, hp⟩ := ih acc
        rw [if_pos hy] at *
        exact ⟨extra, by simpa [hy] using he,
          fun x hx => ⟨List.mem_cons_of_mem _ (hp x hx).1, (hp x hx).2⟩⟩
      · obtain ⟨extra, he, hp⟩ := ih (acc ++ [y])
        rw [if_neg hy] at *
        refine ⟨y :: extra, by simpa using he, ?_⟩
        intro x hx
        rcases List.mem_cons.mp hx with rfl | hx'
        · exact ⟨List.mem_cons_self _ _, hy⟩
        · refine ⟨List.mem_cons_of_mem _ (hp x hx').1, ?_⟩
          intro hxa
          exact (hp x hx').2 (List.mem_append_left _ hxa)

theorem jsSetFrom_append (a b : List JValue) :
    jsSetFrom (a ++ b) = b.foldl jsSetAdd (jsSetFrom a) := by
  unfold jsSetFrom
  exact List.foldl_append _ _ _ _

theorem foldl_jsSetAdd_subset :
    ∀ (l acc : List JValue), (∀ x ∈ l, x ∈ acc) → l.foldl jsSetAdd acc = acc := by
  intro l
  induction l with
  | nil => intro acc _; rfl
  | cons y ys ih =>
      intro acc h
      rw [List.foldl_cons]
      unfold jsSetAdd
      rw [if_pos (h y (List.mem_cons_self _ _))]
      exact ih acc (fun x hx => h x (List.mem_cons_of_mem _ hx))

theorem foldl_jsSetAdd_of_nodup :
    ∀ (l acc : List JValue), (acc ++ l).Nodup → l.foldl jsSetAdd acc = acc ++ l := by
  intro l
  induction l with
  | nil => intro acc _; simp
  | cons y ys ih =>
      intro acc h
      have hy : y ∉ acc := by
        intro hy
        exact (List.disjoint_of_nodup_append h) hy (List.mem_cons_self _ _)
      have hstep : jsSetAdd acc y = acc ++ [y] := by
        unfold jsSetAdd
        rw [if_neg hy]
      have hassoc : (acc ++ [y]) ++ ys = acc ++ y :: ys := by simp
      rw [List.foldl_cons, hstep, ih (acc ++ [y]) (by rw [hassoc]; exact h), hassoc]

theorem jsSetFrom_of_nodup {l : List JValue} (h : l.Nodup) : jsSetFrom l = l := by
  unfold jsSetFrom
  simpa using foldl_jsSetAdd_of_nodup l [] (by simpa using h)

theorem foldl_svzSetAdd_eq_jsSetAdd :
    ∀ (l acc : List JValue), (∀ x ∈ l, isComposite x = false) →
      l.foldl svzSetAdd acc = l.foldl jsSetAdd acc := by
  intro l
  induction l with
  | nil => intro acc _; rfl
  | cons y ys ih =>
      intro acc h
      rw [List.foldl_cons, List.foldl_cons]
      have hy : isComposite y = false := h y (List.mem_cons_self _ _)
      have hstep : svzSetAdd acc y = jsSetAdd acc y := by
        unfold svzSetAdd jsSetAdd
        by_cases hm : y ∈ acc
        · rw [if_pos ⟨hy, hm⟩, if_pos hm]
        · rw [if_neg (fun hc : isComposite y = false ∧ y ∈ acc => hm hc.2), if_neg hm]
      rw [hstep, ih _ (fun x hx => h x (List.mem_cons_of_mem _ hx))]

theorem svzSetFrom_eq_jsSetFrom {l : List JValue}
    (h : ∀ x ∈ l, isComposite x = false) : svzSetFrom l = jsSetFrom l :=
  foldl_svzSetAdd_eq_jsSetAdd l [] h

theorem svzSetFrom_append_composite (l : List JValue) (x : JValue)
    (h : isComposite x = true) :
    svzSetFrom (l ++ [x]) = svzSetFrom l ++ [x] := by
  have hstep : ∀ acc : List JValue, svzSetAdd acc x = acc ++ [x] := by
    intro acc
    unfold svzSetAdd
    rw [if_neg (fun hc : isComposite x = false ∧ x ∈ acc =>
      Bool.false_ne_true (hc.1 ▸ h))]
  unfold svzSetFrom
  rw [List.foldl_append]
  simp only [List.foldl_cons, List.foldl_nil]
  exact hstep _

theorem deepMerge_not_object {t s : JValue}
    (h : typeofObject t = false ∨ typeofObject s = false) :
    deepMerge t s = .ok s := by
  rw [deepMerge]
  rcases h with h | h <;> simp [h]

theorem deepMerge_to_obj (t : JValue) (gs : List (String × JValue))
    (ht : typeofObject t = true) :
    deepMerge t (.obj gs) =
      match mergeEntries t (spreadObj t) gs with
      | .error e => .error e
      | .ok out => .ok (.obj out) := by
  rw [deepMerge, ht]
  simp [typeofObject, entriesOf]

theorem getProp_obj (fs : List (String × JValue)) (k : String) :
    getProp (.obj fs) k = .ok ((lookupKey fs k).getD .undefined) := rfl

theorem stepValue_of_getProp {target : JValue} {k : String} {t : JValue}
    (ht : getProp target k = .ok t) (s : JValue) :
    stepValue target k s =
      if isArrB t && isArrB s then
        Except.ok (JValue.arr (jsSetFrom (arrElems t ++ arrElems s)))
      else if jsTruthy s && typeofObject s then deepMerge t s
      else Except.ok s := by
  rw [stepValue, ht]

theorem stepValue_inv {target : JValue} {k : String} {s v : JValue}
    (h : stepValue target k s = .ok v) :
    ∃ t, getProp target k = .ok t ∧
      (if isArrB t && isArrB s then
        Except.ok (JValue.arr (jsSetFrom (arrElems t ++ arrElems s)))
      else if jsTruthy s && typeofObject s then deepMerge t s
      else Except.ok s) = .ok v := by
  rw [stepValue] at h
  cases hg : getProp target k with
  | error e => rw [hg] at h; cases h
  | ok t => rw [hg] at h; exact ⟨t, rfl, h⟩

/-- Claim C4 counterexample: the claim says a non-composite override —
"including the cases where the override is a primitive, an array, or
null" — replaces the base entirely. But `typeof` classifies arrays and
`null` as objects, so an array override is merged key-by-key into the
base object instead of replacing it, and a null override throws inside
`Object.keys`. Concretely, merging base `{a: 1}` with override `[5]`
yields the object `{a: 1, "0": 5}`, not the array `[5]`. -/
theorem C4_counterexample :
    deepMerge (.obj [("a", .num 1)]) (.arr [.num 5]) =
      .ok (.obj [("a", .num 1), ("0", .num 5)]) ∧
    deepMerge (.obj [("a", .num 1)]) (.arr [.num 5]) ≠ .ok (.arr [.num 5]) ∧
    deepMerge (.obj [])
      .null = .error "TypeError: Cannot convert undefined or null to object" := by
  refine ⟨?_, ?_, ?_⟩ <;>
    · simp only [deepMerge, mergeEntries, entriesOf, spreadObj, arrEntries, getProp,
        lookupKey, setKey, typeofObject, jsTruthy, isArrB, canonIndex]
      decide

/-- Claim C4 (amended): deepMerge returns the override whenever either
operand fails JavaScript's `typeof x === 'object'` test, i.e. is a
boolean, number, string, or undefined. Arrays and null count as
objects: an object-vs-array merge proceeds key-by-key over the array's
indices, and a null override throws a TypeError. -/
theorem C4_replace_on_non_object :
    (∀ t s : JValue, typeofObject t = false ∨ typeofObject s = false →
        deepMerge t s = .ok s) ∧
    (∀ t : JValue, typeofObject t = true → ∃ e, deepMerge t .null = .error e) := by
  constructor
  · intro t s h
    exact deepMerge_not_object h
  · intro t h
    rw [deepMerge, h]
    simp [typeofObject, entriesOf]

/-- Claim C4 witness: the amended theorem applied at a primitive base
with an object override, and at an object base with a null override. -/
theorem C4_replace_witness :
    deepMerge (.num 3) (.obj [("a", .num 1)]) = .ok (.obj [("a", .num 1)]) ∧
    ∃ e, deepMerge (.obj [("a", .num 1)]) .null = .error e :=
  ⟨C4_replace_on_non_object.1 (.num 3) (.obj [("a", .num 1)]) (Or.inl rfl),
   C4_replace_on_non_object.2 (.obj [("a", .num 1)]) rfl⟩

/-- Claim C5 counterexample: the claim says the merged list at an
array-array key is the union of the elements deduped by value
equality. But `new Set` dedupes by SameValueZero — reference identity
for composite elements — and the two operand arrays come from
independent JSON parses, so structurally equal composite elements are
distinct references and are all kept: in Node,
`deepMerge({k:[{a:1}]}, {k:[{a:1}]})` yields `{k:[{a:1},{a:1}]}`.
Under the SameValueZero insertion model the union of `[{a:1}]` and
`[{a:1}]` therefore keeps both copies and is not duplicate-free by
value; the value-equality model (third conjunct) would instead drop
one, so the claimed law holds only under that widened equality. -/
theorem C5_counterexample :
    svzSetFrom ([JValue.obj [("a", .num 1)]] ++ [JValue.obj [("a", .num 1)]]) =
      [JValue.obj [("a", .num 1)], JValue.obj [("a", .num 1)]] ∧
    ¬ (svzSetFrom ([JValue.obj [("a", .num 1)]] ++
        [JValue.obj [("a", .num 1)]])).Nodup ∧
    jsSetFrom ([JValue.obj [("a", .num 1)]] ++ [JValue.obj [("a", .num 1)]]) =
      [JValue.obj [("a", .num 1)]] := by
  refine ⟨?_, ?_, ?_⟩ <;> decide

/-- Claim C5 (amended): at every key where both operands hold arrays of
primitive elements — in particular the string argument lists this
server merges — deepMerge stores the duplicate-free union of the two
arrays' elements, ordered as the base's elements followed by the
override's new elements, and on such elements the value-equality model
provably coincides with the runtime's SameValueZero insertion.
Composite elements, by contrast, compare by reference: a structurally
equal composite element coming from a distinct reference is still
appended (second conjunct). -/
theorem C5_array_union
    (fs gs : List (String × JValue)) (k : String) (ts ss : List JValue) (res : JValue)
    (hgs : (gs.map Prod.fst).Nodup)
    (hf : lookupKey fs k = some (.arr ts)) (hg : lookupKey gs k = some (.arr ss))
    (hprim : ∀ x ∈ ts ++ ss, isComposite x = false)
    (hres : deepMerge (.obj fs) (.obj gs) = .ok res) :
    (∃ out : List (String × JValue), res = .obj out ∧
      lookupKey out k = some (.arr (jsSetFrom (ts ++ ss))) ∧
      jsSetFrom (ts ++ ss) = svzSetFrom (ts ++ ss) ∧
      (jsSetFrom (ts ++ ss)).Nodup ∧
      (∀ x : JValue, x ∈ jsSetFrom (ts ++ ss) ↔ x ∈ ts ∨ x ∈ ss) ∧
      ∃ extra : List JValue, jsSetFrom (ts ++ ss) = jsSetFrom ts ++ extra ∧
        ∀ x ∈ extra, x ∈ ss ∧ x ∉ ts) ∧
    (∀ (l : List JValue) (x : JValue), isComposite x = true →
      svzSetFrom (l ++ [x]) = svzSetFrom l ++ [x]) := by
  refine ⟨?_, svzSetFrom_append_composite⟩
  rw [deepMerge_to_obj (.obj fs) gs rfl] at hres
  cases hmm : mergeEntries (.obj fs) (spreadObj (.obj fs)) gs with
  | error e => rw [hmm] at hres; cases hres
  | ok out =>
      rw [hmm] at hres
      cases hres
      refine ⟨out, rfl, ?_, (svzSetFrom_eq_jsSetFrom hprim).symm,
        jsSetFrom_nodup _, ?_, ?_⟩
      · have hget : getProp (.obj fs) k = .ok (.arr ts) := by
          rw [getProp_obj, hf]
          rfl
        have hstep : stepValue (.obj fs) k (.arr ss) =
            .ok (.arr (jsSetFrom (ts ++ ss))) := by
          rw [stepValue_of_getProp hget (.arr ss)]
          simp [isArrB, arrElems]
        exact mergeEntries_lookup_mem (.obj fs) gs (spreadObj (.obj fs)) out k
          (.arr ss) (.arr (jsSetFrom (ts ++ ss))) (lookupKey_mem hg) hgs hmm hstep
      · intro x
        rw [mem_jsSetFrom, List.mem_append]
      · obtain ⟨extra, he, hp⟩ := foldl_jsSetAdd_extra ss (jsSetFrom ts)
        refine ⟨extra, ?_, ?_⟩
        · rw [jsSetFrom_append, he]
        · intro x hx
          exact ⟨(hp x hx).1, fun hxts => (hp x hx).2 (mem_jsSetFrom.mpr hxts)⟩

/-- Claim C5 witness: the amended union theorem applied to the string
argument lists of two concrete launch configurations sharing the key
`args`, plus the composite-kept clause at a concrete object element. -/
theorem C5_array_union_witness :
    ((∃ out : List (String × JValue),
      (JValue.obj [("args", .arr [.str "--a", .str "--b", .str "--c"])]) = .obj out ∧
      lookupKey out "args" =
        some (.arr (jsSetFrom ([JValue.str "--a", .str "--b"] ++ [JValue.str "--b", .str "--c"]))) ∧
      jsSetFrom ([JValue.str "--a", .str "--b"] ++ [JValue.str "--b", .str "--c"]) =
        svzSetFrom ([JValue.str "--a", .str "--b"] ++ [JValue.str "--b", .str "--c"]) ∧
      (jsSetFrom ([JValue.str "--a", .str "--b"] ++ [JValue.str "--b", .str "--c"])).Nodup ∧
      (∀ x : JValue,
        x ∈ jsSetFrom ([JValue.str "--a", .str "--b"] ++ [JValue.str "--b", .str "--c"]) ↔
          x ∈ [JValue.str "--a", .str "--b"] ∨ x ∈ [JValue.str "--b", .str "--c"]) ∧
      ∃ extra : List JValue,
        jsSetFrom ([JValue.str "--a", .str "--b"] ++ [JValue.str "--b", .str "--c"]) =
          jsSetFrom [JValue.str "--a", .str "--b"] ++ extra ∧
        ∀ x ∈ extra, x ∈ [JValue.str "--b", .str "--c"] ∧ x ∉ [JValue.str "--a", .str "--b"]) ∧
    (∀ (l : List JValue) (x : JValue), isComposite x = true →
      svzSetFrom (l ++ [x]) = svzSetFrom l ++ [x])) ∧
    svzSetFrom ([JValue.str "--a"] ++ [JValue.obj [("a", .num 1)]]) =
      [JValue.str "--a", JValue.obj [("a", .num 1)]] := by
  have h := C5_array_union [("args", .arr [.str "--a", .str "--b"])]
    [("args", .arr [.str "--b", .str "--c"])] "args"
    [.str "--a", .str "--b"] [.str "--b", .str "--c"]
    (.obj [("args", .arr [.str "--a", .str "--b", .str "--c"])])
    (by decide) (by decide) (by decide) (by decide)
    (by
      simp only [deepMerge, mergeEntries, entriesOf, spreadObj, arrEntries, getProp,
        lookupKey, setKey, typeofObject, jsTruthy, isArrB, canonIndex, jsSetFrom,
        jsSetAdd, List.foldl]
      decide)
  refine ⟨h, ?_⟩
  have h2 := h.2 [JValue.str "--a"] (JValue.obj [("a", .num 1)]) (by decide)
  rw [h2]
  decide

theorem nodupKeysB_nodup :
    ∀ {fs : List (String × JValue)}, nodupKeysB fs = true → (fs.map Prod.fst).Nodup := by
  intro fs
  induction fs with
  | nil => intro _; simp
  | cons p rest ih =>
      obtain ⟨k, v⟩ := p
      intro h
      simp only [nodupKeysB, Bool.and_eq_true] at h
      simp only [List.map_cons, List.nodup_cons]
      refine ⟨?_, ih h.2⟩
      intro hk
      obtain ⟨p', hp', hpk⟩ := List.mem_map.mp hk
      have hany : rest.any (fun p => p.1 == k) = true :=
        List.any_eq_true.mpr ⟨p', hp', by simp [hpk]⟩
      rw [hany] at h
      simp at h

theorem lookupKey_of_nodup_mem {α : Type} :
    ∀ {fs : List (String × α)} {k : String} {v : α},
      (fs.map Prod.fst).Nodup → (k, v) ∈ fs → lookupKey fs k = some v := by
  intro fs
  induction fs with
  | nil => intro k v _ h; simp at h
  | cons p rest ih =>
      obtain ⟨k', v'⟩ := p
      intro k v hnd hmem
      simp only [List.map_cons, List.nodup_cons] at hnd
      rcases List.mem_cons.mp hmem with heq | hmem'
      · injection heq with hk hv
        subst hk
        subst hv
        simp [lookupKey]
      · have hne : k' ≠ k := by
          intro hkk
          subst hkk
          exact hnd.1 (List.mem_map.mpr ⟨(k', v), hmem', rfl⟩)
        simp [lookupKey, hne, ih hnd.2 hmem']

theorem wfObjF_mem :
    ∀ {fs : List (String × JValue)} {k : String} {v : JValue},
      wfObjF fs = true → (k, v) ∈ fs → wfObj v = true := by
  intro fs
  induction fs with
  | nil => intro k v _ h; simp at h
  | cons p rest ih =>
      obtain ⟨k', v'⟩ := p
      intro k v h hmem
      simp only [wfObjF, Bool.and_eq_true] at h
      rcases List.mem_cons.mp hmem with heq | hmem'
      · injection heq with hk hv
        subst hv
        exact h.1
      · exact ih h.2 hmem'

theorem noArraysF_mem :
    ∀ {fs : List (String × JValue)} {k : String} {v : JValue},
      noArraysF fs = true → (k, v) ∈ fs → noArrays v = true := by
  intro fs
  induction fs with
  | nil => intro k v _ h; simp at h
  | cons p rest ih =>
      obtain ⟨k', v'⟩ := p
      intro k v h hmem
      simp only [noArraysF, Bool.and_eq_true] at h
      rcases List.mem_cons.mp hmem with heq | hmem'
      · injection heq with hk hv
        subst hv
        exact h.1
      · exact ih h.2 hmem'

theorem jsizeF_le_of_mem :
    ∀ {fs : List (String × JValue)} {k : String} {v : JValue},
      (k, v) ∈ fs → jsize v ≤ jsizeF fs := by
  intro fs
  induction fs with
  | nil => intro k v h; simp at h
  | cons p rest ih =>
      obtain ⟨k', v'⟩ := p
      intro k v hmem
      rcases List.mem_cons.mp hmem with heq | hmem'
      · injection heq with hk hv
        subst hv
        simp [jsizeF]
        omega
      · have := ih hmem'
        simp [jsizeF]
        omega

theorem isArrB_false_of_noArrays {s : JValue} (h : noArrays s = true) :
    isArrB s = false := by
  cases s <;> simp_all [noArrays, isArrB]

theorem eq_obj_of_truthy_object {s : JValue} (h1 : typeofObject s = true)
    (h2 : isArrB s = false) (h3 : jsTruthy s = true) :
    ∃ hs, s = .obj hs := by
  cases s with
  | obj fs => exact ⟨fs, rfl⟩
  | null => simp [jsTruthy] at h3
  | arr xs => simp [isArrB] at h2
  | undefined => simp [typeofObject] at h1
  | bool b => simp [typeofObject] at h1
  | num n => simp [typeofObject] at h1
  | str t => simp [typeofObject] at h1

theorem deepMerge_idem_aux :
    ∀ (N : Nat) (gs : List (String × JValue)), jsizeF gs ≤ N →
      wfObj (.obj gs) = true → noArrays (.obj gs) = true →
      ∀ (t m : JValue), deepMerge t (.obj gs) = .ok m → deepMerge m (.obj gs) = .ok m := by
  intro N
  induction N using Nat.strong_induction_on with
  | _ N ihN =>
      intro gs hsize hwf hna t m hm
      have hwf' : nodupKeysB gs = true ∧ wfObjF gs = true := by
        simpa [wfObj, Bool.and_eq_true] using hwf
      have hnd : (gs.map Prod.fst).Nodup := nodupKeysB_nodup hwf'.1
      have hna' : noArraysF gs = true := by simpa [noArrays] using hna
      -- the second-pass step value coincides with the recorded first-pass value
      have hstep2 : ∀ (mf : List (String × JValue)) (k : String) (s v : JValue),
          (k, s) ∈ gs → lookupKey mf k = some v →
          (∃ t0, (if isArrB t0 && isArrB s then
                    Except.ok (JValue.arr (jsSetFrom (arrElems t0 ++ arrElems s)))
                  else if jsTruthy s && typeofObject s then deepMerge t0 s
                  else Except.ok s) = .ok v) →
          stepValue (.obj mf) k s = .ok v := by
        intro mf k s v hks hlook hex
        obtain ⟨t0, ht0⟩ := hex
        have hget : getProp (.obj mf) k = .ok v := by
          rw [getProp_obj, hlook]
          rfl
        rw [stepValue_of_getProp hget s]
        have hsarr : isArrB s = false := isArrB_false_of_noArrays (noArraysF_mem hna' hks)
        rw [hsarr] at ht0 ⊢
        simp only [Bool.and_false, Bool.false_eq_true, if_false] at ht0 ⊢
        by_cases hcond : (jsTruthy s && typeofObject s) = true
        · rw [hcond] at ht0 ⊢
          simp only [if_true] at ht0 ⊢
          -- s is a plain object strictly smaller than gs
          obtain ⟨hs, rfl⟩ := eq_obj_of_truthy_object
            (by simp_all [Bool.and_eq_true]) hsarr (by simp_all [Bool.and_eq_true])
          have hsmall : jsizeF hs < N := by
            have h1 : jsize (.obj hs) ≤ jsizeF gs := jsizeF_le_of_mem hks
            have h2 : jsize (.obj hs) = 1 + jsizeF hs := by simp [jsize]
            omega
          exact ihN (jsizeF hs) (by omega) hs le_rfl
            (wfObjF_mem hwf'.2 hks) (noArraysF_mem hna' hks) t0 v ht0
        · rw [Bool.not_eq_true] at hcond
          rw [hcond] at ht0 ⊢
          simp only [Bool.false_eq_true, if_false] at ht0 ⊢
          cases ht0
          rfl
      by_cases ht : typeofObject t = true
      · rw [deepMerge_to_obj t gs ht] at hm
        cases hmm : mergeEntries t (spreadObj t) gs with
        | error e => rw [hmm] at hm; cases hm
        | ok out =>
            rw [hmm] at hm
            cases hm
            rw [deepMerge_to_obj (.obj out) gs rfl]
            have hid : mergeEntries (.obj out) out gs = .ok out := by
              apply mergeEntries_id
              intro k s hks
              obtain ⟨v, hv⟩ := mergeEntries_step_ok t gs (spreadObj t) out k s hks hmm
              have hlook : lookupKey out k = some v :=
                mergeEntries_lookup_mem t gs (spreadObj t) out k s v hks hnd hmm hv
              refine ⟨v, ?_, hlook⟩
              obtain ⟨t0, hg0, ht0⟩ := stepValue_inv hv
              exact hstep2 out k s v hks hlook ⟨t0, ht0⟩
            show (match mergeEntries (.obj out) (spreadObj (.obj out)) gs with
                  | Except.error e => Except.error e
                  | Except.ok o => Except.ok (JValue.obj o)) = Except.ok (JValue.obj out)
            rw [show spreadObj (.obj out) = out from rfl, hid]
      · have hmeq : deepMerge t (.obj gs) = .ok (.obj gs) :=
          deepMerge_not_object (Or.inl (by simpa using ht))
        rw [hmeq] at hm
        cases hm
        rw [deepMerge_to_obj (.obj gs) gs rfl]
        have hid : mergeEntries (.obj gs) gs gs = .ok gs := by
          apply mergeEntries_id
          intro k s hks
          have hlook : lookupKey gs k = some s := lookupKey_of_nodup_mem hnd hks
          refine ⟨s, ?_, hlook⟩
          apply hstep2 gs k s s hks hlook
          refine ⟨.undefined, ?_⟩
          have hsarr : isArrB s = false := isArrB_false_of_noArrays (noArraysF_mem hna' hks)
          rw [hsarr]
          simp only [isArrB, Bool.and_false, Bool.false_eq_true, if_false]
          by_cases hcond : (jsTruthy s && typeofObject s) = true
          · rw [hcond]
            simp only [if_true]
            exact deepMerge_not_object (Or.inl rfl)
          · rw [Bool.not_eq_true] at hcond
            rw [hcond]
            simp
        show (match mergeEntries (.obj gs) (spreadObj (.obj gs)) gs with
              | Except.error e => Except.error e
              | Except.ok o => Except.ok (JValue.obj o)) = Except.ok (JValue.obj gs)
        rw [show spreadObj (.obj gs) = gs from rfl, hid]

/-- Claim C6: repeated application of the same override is idempotent:
whenever `b` is an object configuration with duplicate-free keys and no
array-valued fields anywhere, `merge(merge(a,b),b) = merge(a,b)`; and
the array-union rule is itself idempotent — folding the override
elements into an already-taken union changes nothing. -/
theorem C6_merge_idempotent :
    (∀ (a : JValue) (gs : List (String × JValue)) (m : JValue),
        wfObj (.obj gs) = true → noArrays (.obj gs) = true →
        deepMerge a (.obj gs) = .ok m → deepMerge m (.obj gs) = .ok m) ∧
    (∀ ts ss : List JValue,
        jsSetFrom (jsSetFrom (ts ++ ss) ++ ss) = jsSetFrom (ts ++ ss)) := by
  constructor
  · intro a gs m hwf hna hm
    exact deepMerge_idem_aux (jsizeF gs) gs le_rfl hwf hna a m hm
  · intro ts ss
    rw [jsSetFrom_append, jsSetFrom_of_nodup (jsSetFrom_nodup (ts ++ ss))]
    exact foldl_jsSetAdd_subset ss _
      (fun x hx => mem_jsSetFrom.mpr (List.mem_append_right _ hx))

/-- Claim C6 witness: idempotence applied to the concrete merge of
`{headless: false, opts: {a: 1}}` with `{headless: true, opts: {b: 2}}`,
and union idempotence on concrete argument lists. -/
theorem C6_merge_idempotent_witness :
    deepMerge
      (.obj [("headless", .bool true),
             ("opts", .obj [("a", .num 1), ("b", .num 2)])])
      (.obj [("headless", .bool true), ("opts", .obj [("b", .num 2)])]) =
      .ok (.obj [("headless", .bool true),
                 ("opts", .obj [("a", .num 1), ("b", .num 2)])]) ∧
    jsSetFrom (jsSetFrom ([JValue.str "--a"] ++ [JValue.str "--b"]) ++ [JValue.str "--b"]) =
      jsSetFrom ([JValue.str "--a"] ++ [JValue.str "--b"]) :=
  ⟨C6_merge_idempotent.1 (.obj [("headless", .bool false), ("opts", .obj [("a", .num 1)])])
      [("headless", .bool true), ("opts", .obj [("b", .num 2)])]
      (.obj [("headless", .bool true),
             ("opts", .obj [("a", .num 1), ("b", .num 2)])])
      (by decide) (by decide)
      (by
        simp only [deepMerge, mergeEntries, entriesOf, spreadObj, arrEntries, getProp,
          lookupKey, setKey, typeofObject, jsTruthy, isArrB, canonIndex, jsSetFrom,
          jsSetAdd, List.foldl]
        decide),
   C6_merge_idempotent.2 [JValue.str "--a"] [JValue.str "--b"]⟩

/-- Claim C1: after merging, if the effective args list contains any
element starting with a deny-listed prefix and neither the per-call
`allowDangerous` nor the environment override is set, `ensureBrowser`
fails with an error listing every matched argument verbatim, leaving
the state untouched and performing no close or launch; with no flagged
argument — or with either override set — the call proceeds past the
filter unconditionally into the session-management phase. -/
theorem C1_danger_filter
    (env : OEnv) (st : BState) (args lo ad merged av : JValue) (l : List String)
    (hlo : getProp args "launchOptions" = .ok lo)
    (had : getProp args "allowDangerous" = .ok ad)
    (hmerged : deepMerge env.envConfig (if jsTruthy lo then lo else .obj []) = .ok merged)
    (hav : getProp merged "args" = .ok av)
    (htr : jsTruthy av = true)
    (hlist : asStringList av = .ok l) :
    (l.filter dangerousArg ≠ [] → jsTruthy ad = false → env.allowDangerousEnv = false →
      ensureBrowser env st args =
        (st, [], .error ("Dangerous args detected: " ++
          String.intercalate ", " (l.filter dangerousArg)))) ∧
    (l.filter dangerousArg = [] →
      ensureBrowser env st args = ensureAfterFilter env st lo merged) ∧
    (jsTruthy ad = true ∨ env.allowDangerousEnv = true →
      ensureBrowser env st args = ensureAfterFilter env st lo merged) := by
  refine ⟨?_, ?_, ?_⟩
  · intro hne hadf henv
    have hcond : (!(l.filter dangerousArg).isEmpty &&
        !(jsTruthy ad || env.allowDangerousEnv)) = true := by
      rw [hadf, henv]
      cases hf : l.filter dangerousArg with
      | nil => exact absurd hf hne
      | cons a as => rfl
    have hcheck : dangerCheck env.allowDangerousEnv ad merged =
        .error ("Dangerous args detected: " ++
          String.intercalate ", " (l.filter dangerousArg)) := by
      rw [dangerCheck, hav]
      simp only [htr, if_true, hlist, hcond]
    simp only [ensureBrowser, hlo, had, hmerged, hcheck]
  · intro hnil
    have hcheck : dangerCheck env.allowDangerousEnv ad merged = .ok () := by
      rw [dangerCheck, hav]
      simp only [htr, if_true, hlist, hnil]
      rfl
    simp only [ensureBrowser, hlo, had, hmerged, hcheck]
  · intro hover
    have hcond : (!(l.filter dangerousArg).isEmpty &&
        !(jsTruthy ad || env.allowDangerousEnv)) = false := by
      rcases hover with h | h <;> simp [h]
    have hcheck : dangerCheck env.allowDangerousEnv ad merged = .ok () := by
      rw [dangerCheck, hav]
      simp only [htr, if_true, hlist, hcond]
      rfl
    simp only [ensureBrowser, hlo, had, hmerged, hcheck]

/-- Claim C1 witness: a call passing `{args: ["--no-sandbox"]}` without
any override is rejected with the matched argument named, the state
unchanged and no events; dropping the dangerous argument proceeds. -/
theorem C1_danger_filter_witness :
    ensureBrowser benignEnv initState
      (.obj [("launchOptions", .obj [("args", .arr [.str "--no-sandbox"])])]) =
      (initState, [], .error "Dangerous args detected: --no-sandbox") ∧
    ensureBrowser benignEnv initState
      (.obj [("launchOptions", .obj [("args", .arr [.str "--window-size=10,10"])])]) =
      ensureAfterFilter benignEnv initState
        (.obj [("args", .arr [.str "--window-size=10,10"])])
        (.obj [("args", .arr [.str "--window-size=10,10"])]) := by
  constructor
  · have h := (C1_danger_filter benignEnv initState
      (.obj [("launchOptions", .obj [("args", .arr [.str "--no-sandbox"])])])
      (.obj [("args", .arr [.str "--no-sandbox"])]) .undefined
      (.obj [("args", .arr [.str "--no-sandbox"])])
      (.arr [.str "--no-sandbox"]) ["--no-sandbox"]
      (by decide) (by decide)
      (by
        show deepMerge (.obj []) (.obj [("args", .arr [.str "--no-sandbox"])]) =
          .ok (.obj [("args", .arr [.str "--no-sandbox"])])
        simp only [deepMerge, mergeEntries, entriesOf, spreadObj, arrEntries, getProp,
          lookupKey, setKey, typeofObject, jsTruthy, isArrB, canonIndex, jsSetFrom,
          jsSetAdd, List.foldl]
        decide)
      (by decide) (by decide) (by decide)).1 (by decide) (by decide) (by decide)
    simpa using h
  · have h := (C1_danger_filter benignEnv initState
      (.obj [("launchOptions", .obj [("args", .arr [.str "--window-size=10,10"])])])
      (.obj [("args", .arr [.str "--window-size=10,10"])]) .undefined
      (.obj [("args", .arr [.str "--window-size=10,10"])])
      (.arr [.str "--window-size=10,10"]) ["--window-size=10,10"]
      (by decide) (by decide)
      (by
        show deepMerge (.obj []) (.obj [("args", .arr [.str "--window-size=10,10"])]) =
          .ok (.obj [("args", .arr [.str "--window-size=10,10"])])
        simp only [deepMerge, mergeEntries, entriesOf, spreadObj, arrEntries, getProp,
          lookupKey, setKey, typeofObject, jsTruthy, isArrB, canonIndex, jsSetFrom,
          jsSetAdd, List.foldl]
        decide)
      (by decide) (by decide) (by decide)).2.1 (by decide)
    simpa using h

/-- Claim C7 counterexample: `previousLaunchOptions` records the last
call's per-call options, not the creating call's. Call 1 creates the
session with options `{headless: true}`; call 2 supplies no options and
is served by the same session (no events) while resetting
`previousLaunchOptions` to `undefined`; call 3 supplies the creating
call's exact options again, yet closes and relaunches instead of
reusing — refuting the claim as stated. -/
theorem C7_counterexample :
    (ensureBrowser benignEnv initState argsHeadless).2.1 = [Ev.launched 1] ∧
    (ensureBrowser benignEnv
      (ensureBrowser benignEnv initState argsHeadless).1 (.obj [])).2.1 = [] ∧
    (ensureBrowser benignEnv
      (ensureBrowser benignEnv
        (ensureBrowser benignEnv initState argsHeadless).1 (.obj [])).1
      argsHeadless).2.1 = [Ev.closed 1, Ev.launched 1] := by
  refine ⟨?_, ?_, ?_⟩ <;>
    · simp [ensureBrowser, ensureAfterFilter, dangerCheck, asStringList, dangerousArg,
        deepMerge, mergeEntries, entriesOf, spreadObj, arrEntries, getProp, lookupKey,
        setKey, typeofObject, jsTruthy, isArrB, canonIndex, jsSetFrom, jsSetAdd,
        stringifyNorm, stringifyNormL, stringifyNormF, benignEnv, initState,
        argsHeadless, dockerDefaults, nonDockerDefaults]

/-- Claim C7 (amended): with a live connected session, a call whose
per-call launch options are identical by value to the options recorded
from the immediately preceding call (`previousLaunchOptions` — which
equal the creating call's options only when no intervening call changed
them) reuses the session: no close, no launch, same page handle, state
unchanged. -/
theorem C7_reuse
    (env : OEnv) (st : BState) (args lo ad merged : JValue) (b : Browser)
    (hb : st.browser = some b) (hconn : b.connected = true)
    (hlo : getProp args "launchOptions" = .ok lo)
    (hprev : lo = st.previousLaunchOptions)
    (had : getProp args "allowDangerous" = .ok ad)
    (hmerged : deepMerge env.envConfig (if jsTruthy lo then lo else .obj []) = .ok merged)
    (hcheck : dangerCheck env.allowDangerousEnv ad merged = .ok ()) :
    ensureBrowser env st args = (st, [], .ok st.page) := by
  subst hprev
  simp only [ensureBrowser, hlo, had, hmerged, hcheck, ensureAfterFilter, hb, hconn]
  rw [if_neg (by simp), if_neg (fun hc => hc.2 rfl)]
  dsimp only
  rw [← hb]

/-- Claim C7 witness: reuse at a concrete live session whose previous
options equal the call's options. -/
theorem C7_reuse_witness :
    ensureBrowser benignEnv
      { browser := some { id := 1, connected := true }, page := some 7,
        previousLaunchOptions := .obj [("headless", .bool true)],
        consoleLogs := [], screenshots := [], viewport := none }
      argsHeadless =
      ({ browser := some { id := 1, connected := true }, page := some 7,
         previousLaunchOptions := .obj [("headless", .bool true)],
         consoleLogs := [], screenshots := [], viewport := none },
       [], .ok (some 7)) := by
  have h := C7_reuse benignEnv
    { browser := some { id := 1, connected := true }, page := some 7,
      previousLaunchOptions := .obj [("headless", .bool true)],
      consoleLogs := [], screenshots := [], viewport := none }
    argsHeadless (.obj [("headless", .bool true)]) .undefined
    (.obj [("headless", .bool true)]) { id := 1, connected := true }
    rfl rfl (by decide) (by decide) (by decide)
    (by
      show deepMerge (.obj []) (.obj [("headless", .bool true)]) =
        .ok (.obj [("headless", .bool true)])
      simp only [deepMerge, mergeEntries, entriesOf, spreadObj, arrEntries, getProp,
        lookupKey, setKey, typeofObject, jsTruthy, isArrB, canonIndex, jsSetFrom,
        jsSetAdd, List.foldl]
      decide)
    (by decide)
  simpa using h

/-- Claim C8: with a live connected session, a call that does supply
launch options (a truthy, JSON-originated value) differing by value
from the previous call's recorded options forces exactly one close of
the old browser followed by exactly one launch, regardless of what the
options merge to. -/
theorem C8_relaunch
    (env : OEnv) (st : BState) (args lo ad merged : JValue) (b : Browser) (bid : Nat)
    (hb : st.browser = some b) (hconn : b.connected = true)
    (hlo : getProp args "launchOptions" = .ok lo)
    (htr : jsTruthy lo = true)
    (hne : lo ≠ st.previousLaunchOptions)
    (hnu : noUndefined lo = true)
    (hnup : st.previousLaunchOptions = .undefined ∨ noUndefined st.previousLaunchOptions = true)
    (had : getProp args "allowDangerous" = .ok ad)
    (hmerged : deepMerge env.envConfig (if jsTruthy lo then lo else .obj []) = .ok merged)
    (hcheck : dangerCheck env.allowDangerousEnv ad merged = .ok ())
    (hlc : ∃ lc, deepMerge
      (if env.dockerContainer then dockerDefaults else nonDockerDefaults) merged = .ok lc)
    (hlaunch : env.launchResult = .ok bid) :
    ensureBrowser env st args =
      ({ st with browser := some { id := bid, connected := true },
                 page := some env.newPageId,
                 previousLaunchOptions := lo },
       [Ev.closed b.id, Ev.launched bid], .ok (some env.newPageId)) := by
  have hstr : stringifyNorm lo ≠ stringifyNorm st.previousLaunchOptions := by
    rw [stringifyNorm_of_noUndefined hnu]
    rcases hnup with h | h
    · rw [h]
      simp [stringifyNorm]
    · rw [stringifyNorm_of_noUndefined h]
      simp [hne]
  obtain ⟨lc, hlcv⟩ := hlc
  simp only [ensureBrowser, hlo, had, hmerged, hcheck, ensureAfterFilter, hb, hconn]
  rw [if_neg (by simp), if_pos ⟨htr, hstr⟩]
  simp only [hlcv, hlaunch]
  rfl

/-- Claim C8 witness: a live session whose previous options are
`undefined` (the last call supplied none) relaunches when options are
supplied, with exactly one close and one launch. -/
theorem C8_relaunch_witness :
    ensureBrowser benignEnv
      { browser := some { id := 3, connected := true }, page := some 7,
        previousLaunchOptions := .undefined,
        consoleLogs := [], screenshots := [], viewport := none }
      argsHeadless =
      ({ browser := some { id := 1, connected := true }, page := some 7,
         previousLaunchOptions := .obj [("headless", .bool true)],
         consoleLogs := [], screenshots := [], viewport := none },
       [Ev.closed 3, Ev.launched 1], .ok (some 7)) := by
  have h := C8_relaunch benignEnv
    { browser := some { id := 3, connected := true }, page := some 7,
      previousLaunchOptions := .undefined,
      consoleLogs := [], screenshots := [], viewport := none }
    argsHeadless (.obj [("headless", .bool true)]) .undefined
    (.obj [("headless", .bool true)]) { id := 3, connected := true } 1
    rfl rfl (by decide) (by decide) (by decide) (by decide) (Or.inl rfl) (by decide)
    (by
      show deepMerge (.obj []) (.obj [("headless", .bool true)]) =
        .ok (.obj [("headless", .bool true)])
      simp only [deepMerge, mergeEntries, entriesOf, spreadObj, arrEntries, getProp,
        lookupKey, setKey, typeofObject, jsTruthy, isArrB, canonIndex, jsSetFrom,
        jsSetAdd, List.foldl]
      decide)
    (by decide)
    (by
      refine ⟨.obj [("headless", .bool true)], ?_⟩
      show deepMerge (.obj [("headless", .bool false)]) (.obj [("headless", .bool true)]) =
        .ok (.obj [("headless", .bool true)])
      simp only [deepMerge, mergeEntries, entriesOf, spreadObj, arrEntries, getProp,
        lookupKey, setKey, typeofObject, jsTruthy, isArrB, canonIndex, jsSetFrom,
        jsSetAdd, List.foldl]
      decide)
    rfl
  simpa using h

theorem ensure_benign_emptyArgs :
    ensureBrowser benignEnv initState (.obj []) =
      (stLaunched, [Ev.launched 1], .ok (some 7)) := by
  simp [ensureBrowser, ensureAfterFilter, dangerCheck, asStringList, dangerousArg,
    deepMerge, mergeEntries, entriesOf, spreadObj, arrEntries, getProp, lookupKey,
    setKey, typeofObject, jsTruthy, isArrB, canonIndex, jsSetFrom, jsSetAdd,
    stringifyNorm, benignEnv, initState, stLaunched, dockerDefaults, nonDockerDefaults]

/-- Claim C3 counterexample: an unknown tool name does produce the
`isError` result naming it, but the call is not free of session
effects: the ensure step runs first, so from the initial state a
browser is launched and `previousLaunchOptions` is overwritten (from
`null` to `undefined`), refuting "does not affect session state". -/
theorem C3_counterexample :
    (handleToolCall benignEnv benignOracle initState "frobnicate" (.obj [])).2.1 =
      [Ev.launched 1] ∧
    (handleToolCall benignEnv benignOracle initState "frobnicate" (.obj [])).2.2 =
      .ok { content := [.text "Unknown tool: frobnicate"], isError := true } ∧
    (handleToolCall benignEnv benignOracle initState "frobnicate" (.obj [])).1.browser ≠
      initState.browser ∧
    (handleToolCall benignEnv benignOracle initState "frobnicate"
        (.obj [])).1.previousLaunchOptions ≠ initState.previousLaunchOptions := by
  refine ⟨?_, ?_, ?_, ?_⟩ <;>
    · simp only [handleToolCall, ensure_benign_emptyArgs]
      simp [initState, stLaunched]

/-- Claim C3 (amended): a call with a name outside the fixed tool set
returns an `isError` result naming the unknown tool, but only after
the session-ensure step has run: the final state and events are exactly
those of `ensureBrowser` (which may launch a browser and always records
the call's launch options), and the dispatch itself adds nothing. -/
theorem C3_unknown_tool
    (env : OEnv) (po : PageOracle) (st st1 : BState) (evs : List Ev) (pg : Option Nat)
    (name : String) (args : JValue)
    (hname : name ∉ ["puppeteer_navigate", "puppeteer_screenshot", "puppeteer_click",
      "puppeteer_fill", "puppeteer_select", "puppeteer_hover", "puppeteer_evaluate"])
    (hens : ensureBrowser env st args = (st1, evs, .ok pg)) :
    handleToolCall env po st name args =
      (st1, evs, .ok { content := [.text ("Unknown tool: " ++ name)], isError := true }) := by
  have h1 : name ≠ "puppeteer_navigate" := fun h => hname (by rw [h]; simp)
  have h2 : name ≠ "puppeteer_screenshot" := fun h => hname (by rw [h]; simp)
  have h3 : name ≠ "puppeteer_click" := fun h => hname (by rw [h]; simp)
  have h4 : name ≠ "puppeteer_fill" := fun h => hname (by rw [h]; simp)
  have h5 : name ≠ "puppeteer_select" := fun h => hname (by rw [h]; simp)
  have h6 : name ≠ "puppeteer_hover" := fun h => hname (by rw [h]; simp)
  have h7 : name ≠ "puppeteer_evaluate" := fun h => hname (by rw [h]; simp)
  simp only [handleToolCall, hens]
  rw [if_neg h1, if_neg h2, if_neg h3, if_neg h4, if_neg h5, if_neg h6, if_neg h7]

/-- Claim C3 witness: the amended theorem at a concrete unknown tool
call from the initial state, whose ensure step launches browser 1. -/
theorem C3_unknown_tool_witness :
    handleToolCall benignEnv benignOracle initState "frobnicate" (.obj []) =
      (stLaunched, [Ev.launched 1],
       .ok { content := [.text "Unknown tool: frobnicate"], isError := true }) := by
  have h := C3_unknown_tool benignEnv benignOracle initState stLaunched [Ev.launched 1]
    (some 7) "frobnicate" (.obj []) (by decide) ensure_benign_emptyArgs
  simpa using h

/-- Claim C2 counterexample: dispatch is claimed never to throw once
the ensure step succeeds, with navigation errors converted to isError
results. But `puppeteer_navigate` has no `try/catch`: with a
successfully ensured session (the launch event and ok ensure result
below), a failing `goto` makes the whole call return the thrown error,
not an isError ToolResult. -/
theorem C2_counterexample :
    (handleToolCall benignEnv gotoFailOracle initState "puppeteer_navigate"
      (.obj [("url", .str "https://x.test")])).2.2 =
      .error "net::ERR_NAME_NOT_RESOLVED" ∧
    (ensureBrowser benignEnv initState (.obj [("url", .str "https://x.test")])).2.2 =
      .ok (some 7) := by
  constructor <;>
    · simp [handleToolCall, ensureBrowser, ensureAfterFilter, dangerCheck, asStringList,
        dangerousArg, deepMerge, mergeEntries, entriesOf, spreadObj, arrEntries, getProp,
        lookupKey, setKey, typeofObject, jsTruthy, isArrB, canonIndex, jsSetFrom,
        jsSetAdd, stringifyNorm, benignEnv, initState, gotoFailOracle, benignOracle,
        dockerDefaults, nonDockerDefaults]

/-- Claim C2 (amended): once the ensure step succeeds, the five
`try/catch`-wrapped tools (click, fill, select, hover, evaluate) never
throw — they always return a ToolResult whose content is a single text
item, and on an operation failure that result has `isError` true and
carries the tool's failure label with the thrown message (conjuncts two
to six); an unknown tool likewise returns an `isError` result naming it
(conjunct seven); but `puppeteer_navigate`'s goto failure and a thrown
screenshot capture propagate out of the dispatcher as thrown errors
(conjuncts eight and nine), as do ensure-step failures. -/
theorem C2_dispatch :
    (∀ (env : OEnv) (po : PageOracle) (st st1 : BState) (evs : List Ev) (pg : Option Nat)
       (name : String) (args : JValue),
      ensureBrowser env st args = (st1, evs, .ok pg) →
      name ∈ ["puppeteer_click", "puppeteer_fill", "puppeteer_select",
              "puppeteer_hover", "puppeteer_evaluate"] →
      ∃ r : ToolResult, handleToolCall env po st name args = (st1, evs, .ok r) ∧
        ∃ s, r.content = [.text s]) ∧
    (∀ (env : OEnv) (po : PageOracle) (st st1 : BState) (evs : List Ev) (pg : Option Nat)
       (args : JValue) (m : String),
      ensureBrowser env st args = (st1, evs, .ok pg) →
      po.clickErr = some m →
      handleToolCall env po st "puppeteer_click" args =
        (st1, evs, .ok { content := [.text ("Click failed: " ++ m)], isError := true })) ∧
    (∀ (env : OEnv) (po : PageOracle) (st st1 : BState) (evs : List Ev) (pg : Option Nat)
       (args : JValue) (m : String),
      ensureBrowser env st args = (st1, evs, .ok pg) →
      po.fillErr = some m →
      handleToolCall env po st "puppeteer_fill" args =
        (st1, evs, .ok { content := [.text ("Fill failed: " ++ m)], isError := true })) ∧
    (∀ (env : OEnv) (po : PageOracle) (st st1 : BState) (evs : List Ev) (pg : Option Nat)
       (args : JValue) (m : String),
      ensureBrowser env st args = (st1, evs, .ok pg) →
      po.selectErr = some m →
      handleToolCall env po st "puppeteer_select" args =
        (st1, evs, .ok { content := [.text ("Select failed: " ++ m)], isError := true })) ∧
    (∀ (env : OEnv) (po : PageOracle) (st st1 : BState) (evs : List Ev) (pg : Option Nat)
       (args : JValue) (m : String),
      ensureBrowser env st args = (st1, evs, .ok pg) →
      po.hoverErr = some m →
      handleToolCall env po st "puppeteer_hover" args =
        (st1, evs, .ok { content := [.text ("Hover failed: " ++ m)], isError := true })) ∧
    (∀ (env : OEnv) (po : PageOracle) (st st1 : BState) (evs : List Ev) (pg : Option Nat)
       (args : JValue) (m : String),
      ensureBrowser env st args = (st1, evs, .ok pg) →
      (po.evalShimErr = some m ∨
        (po.evalShimErr = none ∧ po.evalResult = .error m) ∨
        (po.evalShimErr = none ∧ (∃ res, po.evalResult = .ok res) ∧
          po.evalLogs = .error m)) →
      handleToolCall env po st "puppeteer_evaluate" args =
        (st1, evs, .ok { content := [.text ("Eval failed: " ++ m)], isError := true })) ∧
    (∀ (env : OEnv) (po : PageOracle) (st st1 : BState) (evs : List Ev) (pg : Option Nat)
       (name : String) (args : JValue),
      ensureBrowser env st args = (st1, evs, .ok pg) →
      name ∉ ["puppeteer_navigate", "puppeteer_screenshot", "puppeteer_click",
              "puppeteer_fill", "puppeteer_select", "puppeteer_hover",
              "puppeteer_evaluate"] →
      handleToolCall env po st name args =
        (st1, evs, .ok { content := [.text ("Unknown tool: " ++ name)], isError := true })) ∧
    (∀ (env : OEnv) (po : PageOracle) (st st1 : BState) (evs : List Ev) (pg : Option Nat)
       (args : JValue) (m : String),
      ensureBrowser env st args = (st1, evs, .ok pg) →
      po.gotoErr = some m →
      handleToolCall env po st "puppeteer_navigate" args = (st1, evs, .error m)) ∧
    (∀ (env : OEnv) (po : PageOracle) (st st1 : BState) (evs : List Ev) (pg : Option Nat)
       (args : JValue) (e : String),
      ensureBrowser env st args = (st1, evs, .ok pg) →
      po.viewportErr = none →
      (if jsTruthy (jsGet args "selector") then po.shotResult
       else po.pageShotResult.map some) = .error e →
      handleToolCall env po st "puppeteer_screenshot" args =
        ({ st1 with viewport := some (jsNullish (jsGet args "width") (.num 800),
                                      jsNullish (jsGet args "height") (.num 600)) },
         evs, .error e)) := by
  refine ⟨?_, ?_, ?_, ?_, ?_, ?_, ?_, ?_, ?_⟩
  case refine_2 =>
    intro env po st st1 evs pg args m hens hc
    simp [handleToolCall, hens, hc]
  case refine_3 =>
    intro env po st st1 evs pg args m hens hc
    simp [handleToolCall, hens, hc]
  case refine_4 =>
    intro env po st st1 evs pg args m hens hc
    simp [handleToolCall, hens, hc]
  case refine_5 =>
    intro env po st st1 evs pg args m hens hc
    simp [handleToolCall, hens, hc]
  case refine_6 =>
    intro env po st st1 evs pg args m hens hc
    rcases hc with hs | ⟨hs, hr⟩ | ⟨hs, ⟨res, hr⟩, hl⟩
    · simp [handleToolCall, hens, hs]
    · simp [handleToolCall, hens, hs, hr]
    · simp [handleToolCall, hens, hs, hr, hl]
  case refine_7 =>
    intro env po st st1 evs pg name args hens hname
    have h1 : name ≠ "puppeteer_navigate" := fun h => hname (by rw [h]; simp)
    have h2 : name ≠ "puppeteer_screenshot" := fun h => hname (by rw [h]; simp)
    have h3 : name ≠ "puppeteer_click" := fun h => hname (by rw [h]; simp)
    have h4 : name ≠ "puppeteer_fill" := fun h => hname (by rw [h]; simp)
    have h5 : name ≠ "puppeteer_select" := fun h => hname (by rw [h]; simp)
    have h6 : name ≠ "puppeteer_hover" := fun h => hname (by rw [h]; simp)
    have h7 : name ≠ "puppeteer_evaluate" := fun h => hname (by rw [h]; simp)
    simp only [handleToolCall, hens]
    rw [if_neg h1, if_neg h2, if_neg h3, if_neg h4, if_neg h5, if_neg h6, if_neg h7]
  case refine_8 =>
    intro env po st st1 evs pg args m hens hgoto
    simp [handleToolCall, hens, hgoto]
  case refine_9 =>
    intro env po st st1 evs pg args e hens hvp hshot
    simp only [handleToolCall, hens]
    simp [hvp, hshot]
  case refine_1 =>
    intro env po st st1 evs pg name args hens hmem
    simp only [List.mem_cons, List.not_mem_nil, or_false] at hmem
    rcases hmem with rfl | rfl | rfl | rfl | rfl
    · cases hc : po.clickErr with
      | some m =>
          exact ⟨{ content := [.text ("Click failed: " ++ m)], isError := true },
            by simp [handleToolCall, hens, hc], _, rfl⟩
      | none =>
          exact ⟨{ content := [.text ("Clicked " ++ jsToString (jsGet args "selector"))],
                   isError := false },
            by simp [handleToolCall, hens, hc], _, rfl⟩
    · cases hc : po.fillErr with
      | some m =>
          exact ⟨{ content := [.text ("Fill failed: " ++ m)], isError := true },
            by simp [handleToolCall, hens, hc], _, rfl⟩
      | none =>
          exact ⟨{ content := [.text ("Filled " ++ jsToString (jsGet args "selector"))],
                   isError := false },
            by simp [handleToolCall, hens, hc], _, rfl⟩
    · cases hc : po.selectErr with
      | some m =>
          exact ⟨{ content := [.text ("Select failed: " ++ m)], isError := true },
            by simp [handleToolCall, hens, hc], _, rfl⟩
      | none =>
          exact ⟨{ content := [.text ("Selected " ++ jsToString (jsGet args "selector"))],
                   isError := false },
            by simp [handleToolCall, hens, hc], _, rfl⟩
    · cases hc : po.hoverErr with
      | some m =>
          exact ⟨{ content := [.text ("Hover failed: " ++ m)], isError := true },
            by simp [handleToolCall, hens, hc], _, rfl⟩
      | none =>
          exact ⟨{ content := [.text ("Hovered " ++ jsToString (jsGet args "selector"))],
                   isError := false },
            by simp [handleToolCall, hens, hc], _, rfl⟩
    · cases hs : po.evalShimErr with
      | some m =>
          exact ⟨{ content := [.text ("Eval failed: " ++ m)], isError := true },
            by simp [handleToolCall, hens, hs], _, rfl⟩
      | none =>
          cases hr : po.evalResult with
          | error m =>
              exact ⟨{ content := [.text ("Eval failed: " ++ m)], isError := true },
                by simp [handleToolCall, hens, hs, hr], _, rfl⟩
          | ok res =>
              cases hl : po.evalLogs with
              | error m =>
                  exact ⟨{ content := [.text ("Eval failed: " ++ m)], isError := true },
                    by simp [handleToolCall, hens, hs, hr, hl], _, rfl⟩
              | ok logs =>
                  exact ⟨{ content := [.text ("Result:\n" ++ res ++ "\nLogs:\n" ++
                            String.intercalate "\n" logs)], isError := false },
                    by simp [handleToolCall, hens, hs, hr, hl], _, rfl⟩

/-- Claim C2 witness: the amended theorem applied concretely — a
failing click converts to an isError text result, an unknown tool
yields an isError result naming it, a failing navigate propagates as a
thrown error, and a throwing full-page capture propagates after the
viewport is applied. -/
theorem C2_dispatch_witness :
    handleToolCall benignEnv clickFailOracle initState "puppeteer_click" (.obj []) =
      (stLaunched, [Ev.launched 1],
       .ok { content := [.text "Click failed: No element found for selector"],
             isError := true }) ∧
    handleToolCall benignEnv benignOracle initState "not_a_tool" (.obj []) =
      (stLaunched, [Ev.launched 1],
       .ok { content := [.text "Unknown tool: not_a_tool"], isError := true }) ∧
    handleToolCall benignEnv gotoFailOracle initState "puppeteer_navigate" (.obj []) =
      (stLaunched, [Ev.launched 1], .error "net::ERR_NAME_NOT_RESOLVED") ∧
    handleToolCall benignEnv shotFailOracle initState "puppeteer_screenshot" (.obj []) =
      ({ stLaunched with viewport := some (.num 800, .num 600) },
       [Ev.launched 1], .error "Page crashed") := by
  refine ⟨?_, ?_, ?_, ?_⟩
  · have h := C2_dispatch.2.1 benignEnv clickFailOracle initState stLaunched
      [Ev.launched 1] (some 7) (.obj []) "No element found for selector"
      ensure_benign_emptyArgs rfl
    simpa using h
  · have h := C2_dispatch.2.2.2.2.2.2.1 benignEnv benignOracle initState stLaunched
      [Ev.launched 1] (some 7) "not_a_tool" (.obj []) ensure_benign_emptyArgs (by decide)
    simpa using h
  · exact C2_dispatch.2.2.2.2.2.2.2.1 benignEnv gotoFailOracle initState stLaunched
      [Ev.launched 1] (some 7) (.obj []) "net::ERR_NAME_NOT_RESOLVED"
      ensure_benign_emptyArgs rfl
  · have h := C2_dispatch.2.2.2.2.2.2.2.2 benignEnv shotFailOracle initState stLaunched
      [Ev.launched 1] (some 7) (.obj []) "Page crashed" ensure_benign_emptyArgs rfl
      (by decide)
    simpa [jsGet, getProp, jsNullish, stLaunched] using h

theorem ensureBrowser_no_notif (env : OEnv) (st : BState) (args : JValue) :
    List.filter isNotifEv (ensureBrowser env st args).2.1 = [] := by
  have hafter : ∀ lo merged,
      List.filter isNotifEv (ensureAfterFilter env st lo merged).2.1 = [] := by
    intro lo merged
    dsimp only [ensureAfterFilter]
    repeat' split
    all_goals simp [isNotifEv]
  rw [ensureBrowser]
  repeat' split
  all_goals first
    | exact hafter _ _
    | simp [isNotifEv]

/-- Claim C9: a screenshot call whose ensure step, viewport application
and capture all succeed sets the viewport to `width`×`height` with
defaults 800×600, stores the captured data under `args.name`
overwriting any prior entry (the lookup afterwards yields the new
data), fires exactly two notifications — resource updated for that
screenshot, then resource list changed — and returns the text
description followed by an inline image item, or a data-URI text item
instead when `encoded` is truthy. -/
theorem C9_screenshot
    (env : OEnv) (po : PageOracle) (st st1 : BState) (evs : List Ev) (pg : Option Nat)
    (args : JValue) (d : String)
    (hens : ensureBrowser env st args = (st1, evs, .ok pg))
    (hvp : po.viewportErr = none)
    (hshot : (if jsTruthy (jsGet args "selector") then po.shotResult
              else po.pageShotResult.map some) = .ok (some d))
    (hd : d ≠ "") :
    handleToolCall env po st "puppeteer_screenshot" args =
      ({ st1 with viewport := some (jsNullish (jsGet args "width") (.num 800),
                                    jsNullish (jsGet args "height") (.num 600)),
                  screenshots := setKey st1.screenshots (jsToString (jsGet args "name")) d },
       evs ++ [Ev.notif "notifications/resources/updated"
                 (some ("screenshot://" ++ jsToString (jsGet args "name"))),
               Ev.notif "notifications/resources/list_changed" none],
       .ok { content :=
               [.text ("Screenshot '" ++ jsToString (jsGet args "name") ++ "' at " ++
                  jsToString (jsNullish (jsGet args "width") (.num 800)) ++ "x" ++
                  jsToString (jsNullish (jsGet args "height") (.num 600))),
                if jsTruthy (jsGet args "encoded") then
                  CItem.text ("data:image/png;base64," ++ d)
                else CItem.image d "image/png"],
             isError := false }) ∧
    lookupKey (setKey st1.screenshots (jsToString (jsGet args "name")) d)
      (jsToString (jsGet args "name")) = some d ∧
    List.filter isNotifEv (handleToolCall env po st "puppeteer_screenshot" args).2.1 =
      [Ev.notif "notifications/resources/updated"
         (some ("screenshot://" ++ jsToString (jsGet args "name"))),
       Ev.notif "notifications/resources/list_changed" none] := by
  have hnotif : List.filter isNotifEv evs = [] := by
    have h := ensureBrowser_no_notif env st args
    rw [hens] at h
    exact h
  have hmain : handleToolCall env po st "puppeteer_screenshot" args =
      ({ st1 with viewport := some (jsNullish (jsGet args "width") (.num 800),
                                    jsNullish (jsGet args "height") (.num 600)),
                  screenshots := setKey st1.screenshots (jsToString (jsGet args "name")) d },
       evs ++ [Ev.notif "notifications/resources/updated"
                 (some ("screenshot://" ++ jsToString (jsGet args "name"))),
               Ev.notif "notifications/resources/list_changed" none],
       .ok { content :=
               [.text ("Screenshot '" ++ jsToString (jsGet args "name") ++ "' at " ++
                  jsToString (jsNullish (jsGet args "width") (.num 800)) ++ "x" ++
                  jsToString (jsNullish (jsGet args "height") (.num 600))),
                if jsTruthy (jsGet args "encoded") then
                  CItem.text ("data:image/png;base64," ++ d)
                else CItem.image d "image/png"],
             isError := false }) := by
    have hde : (d == "") = false := by
      simp [hd]
    simp only [handleToolCall, hens]
    simp [hvp, hshot, jsStrTruthy, hde]
  refine ⟨hmain, lookupKey_setKey_self _ _ _, ?_⟩
  rw [hmain]
  simp [List.filter_append, hnotif, isNotifEv]

/-- Claim C9 witness: the screenshot theorem at a concrete call
`{name: "home"}` with no selector and default sizes, from the initial
state: viewport 800×600, entry `home` stored, the two notifications,
and a text-plus-image result. -/
theorem C9_screenshot_witness :
    handleToolCall benignEnv benignOracle initState "puppeteer_screenshot"
      (.obj [("name", .str "home")]) =
      ({ stLaunched with viewport := some (.num 800, .num 600),
                         screenshots := [("home", "IMG")] },
       [Ev.launched 1,
        Ev.notif "notifications/resources/updated" (some "screenshot://home"),
        Ev.notif "notifications/resources/list_changed" none],
       .ok { content := [.text "Screenshot 'home' at 800x600", CItem.image "IMG" "image/png"],
             isError := false }) := by
  have hens : ensureBrowser benignEnv initState (.obj [("name", .str "home")]) =
      (stLaunched, [Ev.launched 1], .ok (some 7)) := by
    simp [ensureBrowser, ensureAfterFilter, dangerCheck, asStringList, dangerousArg,
      deepMerge, mergeEntries, entriesOf, spreadObj, arrEntries, getProp, lookupKey,
      setKey, typeofObject, jsTruthy, isArrB, canonIndex, jsSetFrom, jsSetAdd,
      stringifyNorm, benignEnv, initState, stLaunched, dockerDefaults, nonDockerDefaults]
  have h := (C9_screenshot benignEnv benignOracle initState stLaunched [Ev.launched 1]
    (some 7) (.obj [("name", .str "home")]) "IMG" hens rfl (by decide) (by decide)).1
  rw [h]
  simp [stLaunched, jsGet, getProp, lookupKey, jsNullish, jsToString, jsTruthy, setKey,
    jsToStringL, jsToStringElem]
  decide

theorem isPrefixOf_extend :
    ∀ (a b c : List Char), a.isPrefixOf b = true → a.isPrefixOf (b ++ c) = true
  | [], _, _, _ => List.isPrefixOf_nil_left
  | a :: as, [], _, h => by simp [List.isPrefixOf] at h
  | a :: as, b :: bs, c, h => by
      simp only [List.cons_append, List.isPrefixOf, Bool.and_eq_true] at h ⊢
      exact ⟨h.1, isPrefixOf_extend as bs c h.2⟩

theorem isPrefixOf_self_append :
    ∀ (a c : List Char), a.isPrefixOf (a ++ c) = true
  | [], _ => List.isPrefixOf_nil_left
  | a :: as, c => by
      simp only [List.cons_append, List.isPrefixOf, Bool.and_eq_true]
      exact ⟨by simp, isPrefixOf_self_append as c⟩

theorem splitCharsAux_nil (sep acc : List Char) :
    splitCharsAux sep acc [] = [acc.reverse] := by
  rw [splitCharsAux]

theorem splitCharsAux_cons_pos (sep acc : List Char) (c : Char) (rest : List Char)
    (h : sep ≠ [] ∧ sep.isPrefixOf (c :: rest) = true) :
    splitCharsAux sep acc (c :: rest) =
      acc.reverse :: splitCharsAux sep [] (List.drop sep.length (c :: rest)) := by
  rw [splitCharsAux, dif_pos h]

theorem splitCharsAux_cons_neg (sep acc : List Char) (c : Char) (rest : List Char)
    (h : ¬(sep ≠ [] ∧ sep.isPrefixOf (c :: rest) = true)) :
    splitCharsAux sep acc (c :: rest) = splitCharsAux sep (c :: acc) rest := by
  rw [splitCharsAux, dif_neg h]

theorem splitCharsAux_no_sep (sep : List Char) :
    ∀ (l acc : List Char), hasSeq sep l = false →
      splitCharsAux sep acc l = [acc.reverse ++ l] := by
  intro l
  induction l with
  | nil => intro acc _; simp [splitCharsAux_nil]
  | cons c rest ih =>
      intro acc h
      have h' : sep.isPrefixOf (c :: rest) = false ∧ hasSeq sep rest = false := by
        simpa [hasSeq] using h
      rw [splitCharsAux_cons_neg sep acc c rest
        (fun hc => Bool.false_ne_true (h'.1 ▸ hc.2))]
      rw [ih (c :: acc) h'.2]
      simp

theorem splitCharsAux_hit (sep : List Char) (hsep : sep ≠ []) (acc l : List Char) :
    splitCharsAux sep acc (sep ++ l) = acc.reverse :: splitCharsAux sep [] l := by
  obtain ⟨s0, srest, rfl⟩ : ∃ s0 srest, sep = s0 :: srest := by
    cases sep with
    | nil => exact absurd rfl hsep
    | cons s0 srest => exact ⟨s0, srest, rfl⟩
  rw [List.cons_append,
    splitCharsAux_cons_pos _ _ _ _
      ⟨hsep, by rw [← List.cons_append]; exact isPrefixOf_self_append _ _⟩]
  congr 1
  rw [← List.cons_append, List.drop_left]

theorem splitCharsAux_skip (sep : List Char) (c0 : Char) (hc0 : sep.head? = some c0) :
    ∀ (pre acc l : List Char), c0 ∉ pre →
      splitCharsAux sep acc (pre ++ l) = splitCharsAux sep (pre.reverse ++ acc) l := by
  intro pre
  induction pre with
  | nil => intro acc l _; simp
  | cons c pre' ih =>
      intro acc l hnot
      have hc : c ≠ c0 := fun h => hnot (h ▸ List.mem_cons_self _ _)
      have hpf : sep.isPrefixOf (c :: (pre' ++ l)) = false := by
        cases sep with
        | nil => simp at hc0
        | cons s0 srest =>
            have h0 : s0 = c0 := by simpa using hc0
            have hb : (s0 == c) = false := by simp [h0, Ne.symm hc]
            simp only [List.isPrefixOf, hb, Bool.false_and]
      rw [List.cons_append,
        splitCharsAux_cons_neg _ _ _ _ (fun hcc => Bool.false_ne_true (hpf ▸ hcc.2))]
      rw [ih (c :: acc) l (fun hm => hnot (List.mem_cons_of_mem _ hm))]
      simp

theorem splitCharsAux_first (sep : List Char) (hsep : sep ≠ []) :
    ∀ (l acc : List Char), hasSeq sep l = true →
      ∃ pre post, l = pre ++ sep ++ post ∧ hasSeq sep pre = false ∧
        splitCharsAux sep acc l = (acc.reverse ++ pre) :: splitCharsAux sep [] post := by
  intro l
  induction l with
  | nil => intro acc h; simp [hasSeq] at h
  | cons c rest ih =>
      intro acc h
      by_cases hp : sep.isPrefixOf (c :: rest) = true
      · obtain ⟨post, hpost⟩ : ∃ post, c :: rest = sep ++ post := by
          obtain ⟨t, ht⟩ := List.isPrefixOf_iff_prefix.mp hp
          exact ⟨t, ht.symm⟩
        refine ⟨[], post, by simpa using hpost, by simp [hasSeq], ?_⟩
        rw [splitCharsAux_cons_pos _ _ _ _ ⟨hsep, hp⟩]
        congr 1
        · simp
        · rw [hpost, List.drop_left]
      · have h' : hasSeq sep rest = true := by
          rw [hasSeq, Bool.not_eq_true] at *
          simpa [hp] using h
        obtain ⟨pre', post', heq, hpre', hsplit⟩ := ih (c :: acc) h'
        refine ⟨c :: pre', post', ?_, ?_, ?_⟩
        · rw [heq]
          simp
        · simp only [hasSeq, Bool.or_eq_false_iff]
          refine ⟨?_, hpre'⟩
          by_contra hcp
          rw [Bool.not_eq_false] at hcp
          have h2 : sep.isPrefixOf (c :: rest) = true := by
            rw [heq]
            have h3 := isPrefixOf_extend sep (c :: pre') (sep ++ post') hcp
            simpa [List.cons_append, List.append_assoc] using h3
          exact hp h2
        · rw [splitCharsAux_cons_neg _ _ _ _ (fun hcc => hp hcc.2)]
          rw [hsplit]
          simp

theorem mkStr_data (s : String) : String.mk s.data = s := by
  obtain ⟨d⟩ := s
  rfl

theorem jsSplit_screenshot (name : String) :
    jsSplit ("screenshot://" ++ name) "://" =
      "screenshot" :: (splitCharsAux "://".data [] name.data).map (fun l => String.mk l) := by
  unfold jsSplit
  have hdata : ("screenshot://" ++ name).data =
      "screenshot".data ++ ("://".data ++ name.data) := by
    rw [String.data_append]
    have h1 : ("screenshot://" : String).data = "screenshot".data ++ "://".data := by decide
    rw [h1, List.append_assoc]
  rw [hdata, splitCharsAux_skip "://".data ':' (by decide) "screenshot".data [] _ (by decide),
    splitCharsAux_hit "://".data (by decide)]
  simp [mkStr_data]

theorem screenshot_uri_ne_console (name : String) :
    ("screenshot://" ++ name) ≠ "console://logs" := by
  intro h
  have h2 : ("screenshot://" ++ name).data = "console://logs".data := congrArg String.data h
  rw [String.data_append] at h2
  have hl : ("screenshot://" : String).data.length = 13 := by decide
  have h4 : (("screenshot://" : String).data ++ name.data).take 13 =
      ("screenshot://" : String).data := hl ▸ List.take_left _ _
  rw [h2] at h4
  exact absurd h4 (by decide)

theorem jsStartsWith_screenshot (name : String) :
    jsStartsWith ("screenshot://" ++ name) "screenshot://" = true := by
  unfold jsStartsWith
  rw [String.data_append]
  exact isPrefixOf_self_append _ _

/-- Claim C10 counterexample: the claim says reading the listed URI of
a stored screenshot whose name contains `://` always fails with a
resource-not-found error. But the read handler looks up only the text
between the first and second `://`: with screenshots `a` and `a://b`
both stored, reading `screenshot://a://b` succeeds — returning the blob
of `a`, not an error (and not the blob of `a://b`). -/
theorem C10_counterexample :
    lookupKey [("a", "AAA"), ("a://b", "BBB")] "a://b" = some "BBB" ∧
    readResource [] [("a", "AAA"), ("a://b", "BBB")] "screenshot://a://b" =
      .ok (.blob "screenshot://a://b" "AAA") := by
  constructor
  · decide
  · have hsplit : jsSplit "screenshot://a://b" "://" = ["screenshot", "a", "b"] := by
      have h1 : ("screenshot://a://b" : String) = "screenshot://" ++ "a://b" := by decide
      rw [h1, jsSplit_screenshot]
      have h2 : ("a://b" : String).data = "a".data ++ ("://".data ++ "b".data) := by decide
      rw [h2, splitCharsAux_skip "://".data ':' (by decide) "a".data [] _ (by decide),
        splitCharsAux_hit "://".data (by decide),
        splitCharsAux_no_sep "://".data "b".data [] (by decide)]
      simp [mkStr_data]
    rw [readResource, if_neg (by decide), if_pos (by decide), hsplit]
    decide

/-- Claim C10 (amended): for a stored screenshot whose name has no
`://`, reading the listed URI `screenshot://name` returns the stored
blob. For a stored name containing `://`, the handler looks up only the
text `mid` between the first and second `://` of the URI — a string
different from the stored name — so the read fails with
resource-not-found when nothing is stored under `mid`, and returns that
other entry's blob when something is; it never returns the blob stored
under the full name. -/
theorem C10_read_roundtrip
    (logs : List String) (shots : List (String × String)) (name blob : String)
    (hlook : lookupKey shots name = some blob) (hblob : blob ≠ "") :
    (hasSepStr name = false →
      readResource logs shots ("screenshot://" ++ name) =
        .ok (.blob ("screenshot://" ++ name) blob)) ∧
    (hasSepStr name = true →
      ∃ mid : String, (∃ post : List Char, name.data = mid.data ++ "://".data ++ post) ∧
        hasSepStr mid = false ∧ mid ≠ name ∧
        (jsSplit ("screenshot://" ++ name) "://").getD 1 "" = mid ∧
        (lookupKey shots mid = none →
          readResource logs shots ("screenshot://" ++ name) =
            .error ("Resource not found: " ++ ("screenshot://" ++ name))) ∧
        (∀ b', lookupKey shots mid = some b' → b' ≠ "" →
          readResource logs shots ("screenshot://" ++ name) =
            .ok (.blob ("screenshot://" ++ name) b'))) := by
  have hne := screenshot_uri_ne_console name
  have hsw := jsStartsWith_screenshot name
  constructor
  · intro hno
    have hsplit : (jsSplit ("screenshot://" ++ name) "://").getD 1 "" = name := by
      rw [jsSplit_screenshot, splitCharsAux_no_sep "://".data name.data [] hno]
      simp [mkStr_data]
    rw [readResource, if_neg hne, if_pos hsw, hsplit, hlook]
    simp [hblob]
  · intro hyes
    obtain ⟨pre, post, heq, hpre, hsplit⟩ :=
      splitCharsAux_first "://".data (by decide) name.data [] hyes
    have hgetd : (jsSplit ("screenshot://" ++ name) "://").getD 1 "" = String.mk pre := by
      rw [jsSplit_screenshot, hsplit]
      simp
    refine ⟨String.mk pre, ⟨post, by simpa using heq⟩, hpre, ?_, hgetd, ?_, ?_⟩
    · intro hmn
      have hdd : pre = name.data := congrArg String.data hmn
      rw [heq] at hdd
      have hlen := congrArg List.length hdd
      simp only [List.length_append] at hlen
      have h3 : ("://".data).length = 3 := by decide
      rw [h3] at hlen
      omega
    · intro hnone
      rw [readResource, if_neg hne, if_pos hsw, hgetd, hnone]
    · intro b' hb' hbne
      rw [readResource, if_neg hne, if_pos hsw, hgetd, hb']
      simp [hbne]

/-- Claim C10 witness: the round-trip theorem at a concrete store with
a marker-free name (read succeeds with the stored blob) and at the
concrete store of the counterexample (the middle segment `a` is not
stored here, so the read fails). -/
theorem C10_read_roundtrip_witness :
    readResource ["log line"] [("home", "B64")] ("screenshot://" ++ "home") =
      .ok (.blob ("screenshot://" ++ "home") "B64") :=
  (C10_read_roundtrip ["log line"] [("home", "B64")] "home" "B64"
    (by decide) (by decide)).1 (by decide)

end PuppeteerMcp
